import Mathlib

/-!
Verification of the smart-invest core pipeline against its specification.

The Python sources are shallowly embedded over `ℚ` (exact rational
arithmetic stands in for IEEE doubles; all constants such as `0.08`,
`1.2`, `1e-6` are taken at their decimal face value).  Missing values
(`None` / `NaN`) are embedded as `Option ℚ`.  Each definition mirrors one
function of the repository and is named after it.
-/

namespace SmartInvest

/-! ## Config: aim/config/parameters.py

Dictionary lookups `D.get(regime, default)` are embedded as total
functions on `String`; the default baked into each function is the one
used at the engine call sites (`MAX_POSITION_SIZE.get(regime, 0.12)`,
`TARGET_RV_ALLOCATION.get(regime, 0.8)`,
`MAX_SECTOR_EXPOSURE_BY_REGIME.get(regime, 0.20)`,
`MAX_ASSET_EXPOSURE_BY_REGIME.get(regime, 0.06)`). -/

/-- `MAX_POSITION_SIZE` (parameters.py lines 101-107) with the call-site
default `0.12`. -/
def maxPositionSize (regime : String) : ℚ :=
  if regime = "RISK_ON_STRONG" then 15/100
  else if regime = "RISK_ON" then 12/100
  else if regime = "TRANSITION" then 8/100
  else if regime = "RISK_OFF" then 5/100
  else if regime = "RISK_OFF_STRONG" then 0
  else 12/100

/-- `TARGET_RV_ALLOCATION` (parameters.py lines 110-116) with the
call-site default `0.8`. -/
def targetRVAllocation (regime : String) : ℚ :=
  if regime = "RISK_ON_STRONG" then 98/100
  else if regime = "RISK_ON" then 95/100
  else if regime = "TRANSITION" then 50/100
  else if regime = "RISK_OFF" then 20/100
  else if regime = "RISK_OFF_STRONG" then 5/100
  else 80/100

/-- `MAX_SECTOR_EXPOSURE_BY_REGIME` (parameters.py lines 119-125) with
the call-site default `0.20`. -/
def maxSectorExposureByRegime (regime : String) : ℚ :=
  if regime = "RISK_ON_STRONG" then 40/100
  else if regime = "RISK_ON" then 35/100
  else if regime = "TRANSITION" then 20/100
  else if regime = "RISK_OFF" then 12/100
  else if regime = "RISK_OFF_STRONG" then 10/100
  else 20/100

/-- `MAX_ASSET_EXPOSURE_BY_REGIME` (parameters.py lines 128-134) with
the call-site default `0.06`. -/
def maxAssetExposureByRegime (regime : String) : ℚ :=
  if regime = "RISK_ON_STRONG" then 15/100
  else if regime = "RISK_ON" then 12/100
  else if regime = "TRANSITION" then 6/100
  else if regime = "RISK_OFF" then 4/100
  else if regime = "RISK_OFF_STRONG" then 2/100
  else 6/100

/-- `MIN_POSITION_SIZE` (parameters.py line 137). -/
def minPositionSizeConst : ℚ := 1/100

/-- `MAX_CONCENTRATION` (parameters.py line 139). -/
def maxConcentrationConst : ℚ := 20/100

theorem maxPositionSize_nonneg (regime : String) : 0 ≤ maxPositionSize regime := by
  unfold maxPositionSize; split <;> norm_num
  split <;> norm_num
  split <;> norm_num
  split <;> norm_num
  split <;> norm_num

theorem maxAssetExposure_nonneg (regime : String) :
    0 ≤ maxAssetExposureByRegime regime := by
  unfold maxAssetExposureByRegime; split <;> norm_num
  split <;> norm_num
  split <;> norm_num
  split <;> norm_num
  split <;> norm_num

theorem maxSectorExposure_nonneg (regime : String) :
    0 ≤ maxSectorExposureByRegime regime := by
  unfold maxSectorExposureByRegime; split <;> norm_num
  split <;> norm_num
  split <;> norm_num
  split <;> norm_num
  split <;> norm_num

theorem targetRVAllocation_pos (regime : String) : 0 < targetRVAllocation regime := by
  unfold targetRVAllocation; split <;> norm_num
  split <;> norm_num
  split <;> norm_num
  split <;> norm_num
  split <;> norm_num

/-! ## Regime classifier: aim/regime/calculator.py -/

/-- The five macro proxies fed to the regime classifier.  A `none` field
embeds a Python `None` score for that proxy. -/
structure ProxyScores where
  yieldCurve : Option ℚ
  riskSpread : Option ℚ
  ibovTrend : Option ℚ
  capitalFlow : Option ℚ
  liquiditySentiment : Option ℚ
deriving DecidableEq, Repr

/-- `REGIME_VARIABLE_WEIGHTS` (parameters.py lines 78-84), attached to
each proxy score in the dict iteration order of
`classify_regime_from_scores`. -/
def proxyPairs (s : ProxyScores) : List (Option ℚ × ℚ) :=
  [(s.yieldCurve, 5/2), (s.riskSpread, 2), (s.ibovTrend, 5/2),
   (s.capitalFlow, 3/2), (s.liquiditySentiment, 3/2)]

/-- Fold computing `weighted_sum` over (score, weight) pairs: a `None`
score is skipped (calculator.py lines 263-267). -/
def optWSum (l : List (Option ℚ × ℚ)) : ℚ :=
  l.foldr (fun p acc => match p.1 with
    | some v => v * p.2 + acc
    | none => acc) 0

/-- Fold computing `total_score` (the sum of the weights of the
non-`None` scores, calculator.py lines 263-267). -/
def optWTot (l : List (Option ℚ × ℚ)) : ℚ :=
  l.foldr (fun p acc => match p.1 with
    | some _ => p.2 + acc
    | none => acc) 0

/-- The `weighted_sum` accumulator of `classify_regime_from_scores`
(calculator.py lines 260-267): `None` scores contribute nothing. -/
def weightedSum (s : ProxyScores) : ℚ :=
  optWSum (proxyPairs s)

/-- The `total_score` accumulator of `classify_regime_from_scores`
(the sum of the weights of the non-`None` proxies). -/
def totalWeight (s : ProxyScores) : ℚ :=
  optWTot (proxyPairs s)

/-- The normalized composite of `classify_regime_from_scores`
(calculator.py lines 269-273): `weighted_sum / (total_score / 2)`,
or `0` when no weight is available. -/
def finalScore (s : ProxyScores) : ℚ :=
  if totalWeight s > 0 then weightedSum s / (totalWeight s / 2) else 0

/-- Threshold comparison of `classify_regime_from_scores`
(calculator.py lines 275-285) against `REGIME_THRESHOLDS`
(parameters.py lines 89-94). -/
def classifyScore (f : ℚ) : String :=
  if f ≥ 8 then "RISK_ON_STRONG"
  else if f ≥ 4 then "RISK_ON"
  else if f ≤ -8 then "RISK_OFF_STRONG"
  else if f ≤ -4 then "RISK_OFF"
  else "TRANSITION"

/-- `classify_regime_from_scores` (calculator.py lines 245-294):
returns the regime label and the normalized composite. -/
def classifyRegimeFromScores (s : ProxyScores) : String × ℚ :=
  (classifyScore (finalScore s), finalScore s)

/-- The spec's ordering RISK_OFF_STRONG < RISK_OFF < TRANSITION <
RISK_ON < RISK_ON_STRONG, as a numeric rank (any unknown label sits
below the scale; the classifier never emits one). -/
def regimeOrderRank (r : String) : ℕ :=
  if r = "RISK_OFF_STRONG" then 0
  else if r = "RISK_OFF" then 1
  else if r = "TRANSITION" then 2
  else if r = "RISK_ON" then 3
  else if r = "RISK_ON_STRONG" then 4
  else 0

/-- The five proxies, for stating per-proxy monotonicity. -/
inductive Proxy
  | yieldCurve | riskSpread | ibovTrend | capitalFlow | liquiditySentiment
deriving DecidableEq, Repr

/-- Overwrite one proxy's score with a present value. -/
def setProxy (s : ProxyScores) (p : Proxy) (v : ℚ) : ProxyScores :=
  match p with
  | .yieldCurve => { s with yieldCurve := some v }
  | .riskSpread => { s with riskSpread := some v }
  | .ibovTrend => { s with ibovTrend := some v }
  | .capitalFlow => { s with capitalFlow := some v }
  | .liquiditySentiment => { s with liquiditySentiment := some v }

theorem optWSum_cons (q : Option ℚ × ℚ) (t : List (Option ℚ × ℚ)) :
    optWSum (q :: t) =
      (match q.1 with | some v => v * q.2 | none => 0) + optWSum t := by
  rcases q with ⟨o, w⟩
  cases o <;> simp [optWSum]

theorem optWTot_cons (q : Option ℚ × ℚ) (t : List (Option ℚ × ℚ)) :
    optWTot (q :: t) =
      (match q.1 with | some _ => q.2 | none => 0) + optWTot t := by
  rcases q with ⟨o, w⟩
  cases o <;> simp [optWTot]

theorem optWSum_cons_some (v w : ℚ) (t : List (Option ℚ × ℚ)) :
    optWSum ((some v, w) :: t) = v * w + optWSum t := rfl

theorem optWSum_cons_none (w : ℚ) (t : List (Option ℚ × ℚ)) :
    optWSum ((none, w) :: t) = optWSum t := rfl

theorem optWTot_cons_some (v w : ℚ) (t : List (Option ℚ × ℚ)) :
    optWTot ((some v, w) :: t) = w + optWTot t := rfl

theorem optWTot_cons_none (w : ℚ) (t : List (Option ℚ × ℚ)) :
    optWTot ((none, w) :: t) = optWTot t := rfl

theorem optWTot_nonneg (l : List (Option ℚ × ℚ))
    (h : ∀ q ∈ l, 0 ≤ q.2) : 0 ≤ optWTot l := by
  induction l with
  | nil => simp [optWTot]
  | cons q t ih =>
    rw [optWTot_cons]
    have hq := h q (by simp)
    have ht : 0 ≤ optWTot t := ih (fun x hx => h x (by simp [hx]))
    rcases q with ⟨o, w⟩
    cases o <;> simp_all <;> linarith

theorem optWTot_pos {l : List (Option ℚ × ℚ)} {v w : ℚ}
    (hmem : (some v, w) ∈ l) (hw : 0 < w) (h : ∀ q ∈ l, 0 ≤ q.2) :
    0 < optWTot l := by
  induction l with
  | nil => simp at hmem
  | cons q t ih =>
    rw [optWTot_cons]
    have ht : 0 ≤ optWTot t := optWTot_nonneg t (fun x hx => h x (by simp [hx]))
    rcases List.mem_cons.mp hmem with hq | hq
    · rw [← hq]
      simpa using by linarith
    · have hpos := ih hq (fun x hx => h x (by simp [hx]))
      have hq0 := h q (by simp)
      rcases q with ⟨o, w'⟩
      cases o <;> simp_all <;> linarith

theorem optWSum_le_two_tot (l : List (Option ℚ × ℚ))
    (hw : ∀ q ∈ l, 0 ≤ q.2)
    (hv : ∀ q ∈ l, ∀ v, q.1 = some v → -2 ≤ v ∧ v ≤ 2) :
    -(2 * optWTot l) ≤ optWSum l ∧ optWSum l ≤ 2 * optWTot l := by
  induction l with
  | nil => simp [optWSum, optWTot]
  | cons q t ih =>
    have ht := ih (fun x hx => hw x (by simp [hx]))
      (fun x hx => hv x (by simp [hx]))
    have hq0 := hw q (by simp)
    rcases q with ⟨o, w⟩
    cases o with
    | none =>
      rw [optWSum_cons_none, optWTot_cons_none]
      exact ht
    | some v =>
      have hb := hv (some v, w) (by simp) v rfl
      rw [optWSum_cons_some, optWTot_cons_some]
      simp only at hq0
      constructor <;> nlinarith [ht.1, ht.2, hb.1, hb.2]

theorem proxyPairs_weights_nonneg (s : ProxyScores) :
    ∀ q ∈ proxyPairs s, 0 ≤ q.2 := by
  intro q hq
  simp [proxyPairs] at hq
  rcases hq with rfl | rfl | rfl | rfl | rfl <;> norm_num

/-- The threshold map is monotone in the composite score. -/
theorem classifyScore_monotone {a b : ℚ} (hab : a ≤ b) :
    regimeOrderRank (classifyScore a) ≤ regimeOrderRank (classifyScore b) := by
  unfold classifyScore
  split_ifs <;> first | decide | linarith

/-- Presence pattern is unchanged by overwriting a present value, so the
denominator is unchanged. -/
theorem totalWeight_setProxy (s : ProxyScores) (p : Proxy) (a b : ℚ) :
    totalWeight (setProxy s p a) = totalWeight (setProxy s p b) := by
  cases p <;> rfl

theorem weightedSum_setProxy_le (s : ProxyScores) (p : Proxy) {a b : ℚ}
    (hab : a ≤ b) :
    weightedSum (setProxy s p a) ≤ weightedSum (setProxy s p b) := by
  cases p <;>
    · simp [weightedSum, setProxy, proxyPairs, optWSum_cons]
      try linarith

theorem totalWeight_setProxy_pos (s : ProxyScores) (p : Proxy) (a : ℚ) :
    0 < totalWeight (setProxy s p a) := by
  have hw := proxyPairs_weights_nonneg (setProxy s p a)
  cases p
  case yieldCurve =>
    exact @optWTot_pos _ a (5/2) (by simp [setProxy, proxyPairs]) (by norm_num) hw
  case riskSpread =>
    exact @optWTot_pos _ a 2 (by simp [setProxy, proxyPairs]) (by norm_num) hw
  case ibovTrend =>
    exact @optWTot_pos _ a (5/2) (by simp [setProxy, proxyPairs]) (by norm_num) hw
  case capitalFlow =>
    exact @optWTot_pos _ a (3/2) (by simp [setProxy, proxyPairs]) (by norm_num) hw
  case liquiditySentiment =>
    exact @optWTot_pos _ a (3/2) (by simp [setProxy, proxyPairs]) (by norm_num) hw

/-- **C4.** For every assignment of proxy scores and every single proxy,
raising that proxy's score while holding the others fixed moves
`classify_regime_from_scores` to an equal-or-higher regime in the order
RISK_OFF_STRONG < RISK_OFF < TRANSITION < RISK_ON < RISK_ON_STRONG. -/
theorem claim_C4_regime_monotonicity (s : ProxyScores) (p : Proxy) (a b : ℚ)
    (hab : a ≤ b) :
    regimeOrderRank (classifyRegimeFromScores (setProxy s p a)).1 ≤
      regimeOrderRank (classifyRegimeFromScores (setProxy s p b)).1 := by
  have htot := totalWeight_setProxy s p a b
  have hpos := totalWeight_setProxy_pos s p a
  have hws := weightedSum_setProxy_le s p hab
  have hfs : finalScore (setProxy s p a) ≤ finalScore (setProxy s p b) := by
    unfold finalScore
    rw [htot]
    rw [htot] at hpos
    rw [if_pos hpos, if_pos hpos]
    have hhalf : (0:ℚ) < totalWeight (setProxy s p b) / 2 := by linarith
    exact div_le_div_of_nonneg_right hws hhalf.le
  exact classifyScore_monotone hfs

/-- Witness for C4 at a concrete input. -/
theorem claim_C4_witness :
    (0 : ℚ) ≤ 1 ∧
      regimeOrderRank (classifyRegimeFromScores
        (setProxy ⟨some 0, some 0, some 0, some 0, some 0⟩ .yieldCurve 0)).1 ≤
      regimeOrderRank (classifyRegimeFromScores
        (setProxy ⟨some 0, some 0, some 0, some 0, some 0⟩ .yieldCurve 1)).1 :=
  ⟨by norm_num,
   claim_C4_regime_monotonicity ⟨some 0, some 0, some 0, some 0, some 0⟩
     .yieldCurve 0 1 (by norm_num)⟩

/-- **C5.** If every present proxy score lies in the clipped range
[-2, 2], the normalized composite lies in [-4, 4]; the thresholds +8 and
-8 are unreachable, so the classifier never returns RISK_ON_STRONG or
RISK_OFF_STRONG on clipped inputs. -/
theorem claim_C5_clipped_composite_bounded (s : ProxyScores)
    (hs : ∀ q ∈ proxyPairs s, ∀ v, q.1 = some v → -2 ≤ v ∧ v ≤ 2) :
    -4 ≤ finalScore s ∧ finalScore s ≤ 4 ∧
      (classifyRegimeFromScores s).1 ≠ "RISK_ON_STRONG" ∧
      (classifyRegimeFromScores s).1 ≠ "RISK_OFF_STRONG" := by
  have hw := proxyPairs_weights_nonneg s
  have hbound := optWSum_le_two_tot (proxyPairs s) hw hs
  have hrange : -4 ≤ finalScore s ∧ finalScore s ≤ 4 := by
    unfold finalScore
    split_ifs with hpos
    · have h2 : (0:ℚ) < totalWeight s / 2 := by
        unfold totalWeight at hpos ⊢; linarith
      constructor
      · rw [le_div_iff h2]
        unfold weightedSum totalWeight
        nlinarith [hbound.1]
      · rw [div_le_iff h2]
        unfold weightedSum totalWeight
        nlinarith [hbound.2]
    · norm_num
  refine ⟨hrange.1, hrange.2, ?_, ?_⟩ <;>
    · simp only [classifyRegimeFromScores, classifyScore]
      split_ifs <;> first | decide | linarith [hrange.1, hrange.2]

/-- Witness for C5 at a concrete input. -/
theorem claim_C5_witness :
    (∀ q ∈ proxyPairs ⟨some 2, some 2, none, some (-1), some 2⟩,
        ∀ v, q.1 = some v → -2 ≤ v ∧ v ≤ 2) ∧
      -4 ≤ finalScore ⟨some 2, some 2, none, some (-1), some 2⟩ ∧
      finalScore ⟨some 2, some 2, none, some (-1), some 2⟩ ≤ 4 ∧
      (classifyRegimeFromScores ⟨some 2, some 2, none, some (-1), some 2⟩).1
        ≠ "RISK_ON_STRONG" ∧
      (classifyRegimeFromScores ⟨some 2, some 2, none, some (-1), some 2⟩).1
        ≠ "RISK_OFF_STRONG" := by
  refine ⟨by decide, ?_⟩
  have h := claim_C5_clipped_composite_bounded
    ⟨some 2, some 2, none, some (-1), some 2⟩ (by decide)
  exact ⟨h.1, h.2.1, h.2.2.1, h.2.2.2⟩

/-! ## Decimal rounding

Python's `round(x, 4)` is embedded as exact round-half-to-even on the
grid of multiples of `1e-4` (the binary-float noise of CPython's round
is below every tolerance the spec mentions). -/

/-- Round a rational to the nearest integer, ties to even. -/
def roundHalfEven (q : ℚ) : ℤ :=
  if q - (⌊q⌋ : ℚ) < 1/2 then ⌊q⌋
  else if 1/2 < q - (⌊q⌋ : ℚ) then ⌊q⌋ + 1
  else if Even ⌊q⌋ then ⌊q⌋ else ⌊q⌋ + 1

/-- `round(x, 4)`. -/
def round4 (q : ℚ) : ℚ := (roundHalfEven (q * 10000) : ℚ) / 10000

theorem roundHalfEven_le_of_le {q : ℚ} {z : ℤ} (h : q ≤ (z : ℚ)) :
    roundHalfEven q ≤ z := by
  have hfq : (⌊q⌋ : ℚ) ≤ q := Int.floor_le q
  have hfloor : ⌊q⌋ ≤ z := by
    have hc : (⌊q⌋ : ℚ) ≤ (z : ℚ) := le_trans hfq h
    exact_mod_cast hc
  unfold roundHalfEven
  split_ifs with h1 h2 h3
  · exact hfloor
  · have hlt : (⌊q⌋ : ℚ) < q := by linarith
    have hz : ⌊q⌋ < z := by exact_mod_cast lt_of_lt_of_le hlt h
    omega
  · exact hfloor
  · push_neg at h1
    have hlt : (⌊q⌋ : ℚ) < q := by linarith
    have hz : ⌊q⌋ < z := by exact_mod_cast lt_of_lt_of_le hlt h
    omega

theorem roundHalfEven_nonneg {q : ℚ} (h : 0 ≤ q) : 0 ≤ roundHalfEven q := by
  have hfloor : 0 ≤ ⌊q⌋ := Int.le_floor.mpr (by exact_mod_cast h)
  unfold roundHalfEven
  split_ifs <;> omega

theorem round4_le_of_le_grid {w B : ℚ} {z : ℤ} (hB : B = (z : ℚ) / 10000)
    (h : w ≤ B) : round4 w ≤ B := by
  have h1 : w * 10000 ≤ (z : ℚ) := by rw [hB] at h; linarith
  have h2 : (roundHalfEven (w * 10000) : ℚ) ≤ (z : ℚ) := by
    exact_mod_cast roundHalfEven_le_of_le h1
  unfold round4
  rw [hB]
  linarith

theorem round4_nonneg {w : ℚ} (h : 0 ≤ w) : 0 ≤ round4 w := by
  have h1 : (0 : ℚ) ≤ w * 10000 := by linarith
  have h2 : (0 : ℚ) ≤ (roundHalfEven (w * 10000) : ℚ) := by
    exact_mod_cast roundHalfEven_nonneg h1
  unfold round4
  linarith

/-! ## Allocation engine: aim/allocation/engine.py, aim/risk/manager.py

`build_portfolio_from_scores` is embedded from the point where the
ranked candidates (`top_assets`, a database query result) are in hand;
the candidate list is the input.  `NaN` cells are embedded as `none`.
The function raises nowhere on this path; its embedding is total. -/

/-- One row of the `top_assets` dataframe.  `sector` carries the
`row.get("sector", "UNKNOWN")` default already applied. -/
structure CandidateRow where
  ticker : String
  scoreFinal : Option ℚ
  scoreMomentum : Option ℚ
  scoreQuality : Option ℚ
  scoreValue : Option ℚ
  scoreVolatility : Option ℚ
  scoreLiquidity : Option ℚ
  sector : String
deriving DecidableEq, Repr

/-- One holding dict of `build_portfolio_from_scores`. -/
structure Holding where
  ticker : String
  weight : ℚ
  score : Option ℚ
  sector : String
  assetCapped : Bool
  sectorCapped : Bool
  sectorExposurePct : ℚ
deriving DecidableEq, Repr

/-- `{h["ticker"]: ...}` sum of weights. -/
def totalWeightOf (hs : List Holding) : ℚ := (hs.map (·.weight)).sum

/-- Exposure of one sector (sum of the weights of its holdings). -/
def sectorExposureOf (hs : List Holding) (s : String) : ℚ :=
  ((hs.filter (fun h => h.sector = s)).map (·.weight)).sum

/-- The `AllocationDiagnostics` dict (engine.py lines 349-357). -/
structure AllocationDiagnostics where
  targetRvAllocation : ℚ
  achievedRvAllocation : ℚ
  allocationGap : ℚ
  allocationNote : String
  positiveScoreAssets : ℕ
  assetCapsApplied : ℕ
  sectorCapsApplied : ℕ
deriving DecidableEq, Repr

/-- Return value of `build_portfolio_from_scores`: a bare `[]` when no
ranking rows exist (engine.py line 71), otherwise the triple. -/
inductive BuildOutput
  | noRanking
  | result (holdings : List Holding) (sectorExposure : List (String × ℚ))
      (diagnostics : AllocationDiagnostics)
deriving DecidableEq, Repr

def buildHoldings (o : BuildOutput) : List Holding :=
  match o with
  | .noRanking => []
  | .result hs _ _ => hs

/-- `calculate_position_size_risk_based` (manager.py lines 22-51) with
the engine's call `target_portfolio_vol=0.15`; `np.sqrt(10)` is an
irrational constant and is abstracted as the argument `sqrt10`. -/
def calculatePositionSizeRiskBased (volatility sqrt10 : ℚ) : ℚ :=
  if volatility ≤ 0 then minPositionSizeConst
  else
    max minPositionSizeConst
      (min maxConcentrationConst ((15/100) / (volatility * sqrt10)))

/-- `calculate_position_size_equal_weight` (manager.py lines 54-77):
`min(1/n, MAX_POSITION_SIZE.get(regime, 0.12))`, and `0.0` for
`n <= 0`. -/
def calculatePositionSizeEqualWeight (n : ℤ) (regime : String) : ℚ :=
  if n ≤ 0 then 0
  else min (1 / (n : ℚ)) (maxPositionSize regime)

/-- Does `pat` occur at the head of `l`? -/
def leadsWith : List Char → List Char → Bool
  | [], _ => true
  | _ :: _, [] => false
  | c :: cs, d :: ds => c = d && leadsWith cs ds

/-- Does `pat` occur anywhere in `l`? -/
def containsSeq (pat : List Char) : List Char → Bool
  | [] => leadsWith pat []
  | c :: cs => leadsWith pat (c :: cs) || containsSeq pat cs

/-- `"RISK_OFF" in regime` (Python substring test, engine.py line 205). -/
def containsRiskOff (regime : String) : Bool :=
  containsSeq "RISK_OFF".toList regime.toList

/-- Note of the score_weighted no-positive-scores fallback (engine.py
lines 135-138); the literal Portuguese text, accents simplified. -/
def noteFallbackEqualWeight : String :=
  "Nenhum ativo com score positivo no recorte atual. Aplicado fallback equal_weight."

/-- Note of the score_weighted shifted-ranking redistribution (engine.py
lines 153-156); the interpolated counts are elided. -/
def noteShiftRanking : String :=
  "Apenas k/n ativos tinham score positivo. Aplicada redistribuicao por ranking."

/-- Note of the below-target diagnostics (engine.py lines 344-347); the
interpolated counts are elided. -/
def noteBelowTarget : String :=
  "Alocacao abaixo do alvo por restricoes ativas."

/-- Minimum of a pandas series (`Series.min()` on a non-empty series;
`0` only for the empty series, which the call sites exclude). -/
def qListMin (l : List ℚ) : ℚ :=
  match l with
  | [] => 0
  | x :: xs => xs.foldl min x

/-- The rescored and re-sorted `top_assets` when prompt priority factors
are given (engine.py lines 74-108).  The five normalized factor weights
are recomputed; a `NaN` component poisons the new `score_final`
(embedded as `none`), and the sort is descending with `NaN` last.
pandas' default quicksort leaves tie order unspecified; the embedding
uses a stable sort. -/
def applyPriorityFactors (factors : List String) (cands : List CandidateRow) :
    List CandidateRow :=
  let wm := if "momentum" ∈ factors then (35:ℚ)/100 else 15/100
  let wq := if "quality" ∈ factors then (35:ℚ)/100 else 15/100
  let wv := if "value" ∈ factors then (35:ℚ)/100 else 15/100
  let wvol := if "volatility" ∈ factors then (35:ℚ)/100 else 15/100
  let wl := if "liquidity" ∈ factors then (35:ℚ)/100 else 10/100
  let tw := wm + wq + wv + wvol + wl
  let recomputed := cands.map (fun r =>
    let sf := match r.scoreMomentum, r.scoreQuality, r.scoreValue,
        r.scoreVolatility, r.scoreLiquidity with
      | some m, some q, some v, some vol, some l =>
          some (m * (wm/tw) + q * (wq/tw) + v * (wv/tw) +
            vol * (wvol/tw) + l * (wl/tw))
      | _, _, _, _, _ => none
    { r with scoreFinal := sf })
  recomputed.mergeSort (fun a b =>
    match a.scoreFinal, b.scoreFinal with
    | _, none => true
    | none, some _ => false
    | some x, some y => decide (y ≤ x))

/-- The `top_assets` dataframe after the optional priority-factor
reweighting (engine.py lines 74-108). -/
def topAssets (cands : List CandidateRow) (pf : Option (List String)) :
    List CandidateRow :=
  match pf with
  | some fs => if fs.length > 0 then applyPriorityFactors fs cands else cands
  | none => cands

/-- `selected = top_assets.head(n_positions)` (engine.py line 111);
pandas `head` of a negative count drops that many trailing rows. -/
def selectedCandidates (cands : List CandidateRow) (n : ℤ)
    (pf : Option (List String)) : List CandidateRow :=
  let top := topAssets cands pf
  if 0 ≤ n then top.take n.toNat else top.take (top.length - (-n).toNat)

/-- `raw_scores = selected["score_final"].fillna(0)` (engine.py line 129). -/
def rawScore (r : CandidateRow) : ℚ := r.scoreFinal.getD 0

/-- `valid_scores = raw_scores[raw_scores > 0]` (engine.py line 130). -/
def validScores (selected : List CandidateRow) : List CandidateRow :=
  selected.filter (fun r => 0 < rawScore r)

/-- `effective_scores` (engine.py lines 148-158): shifted by
`min_score + 1e-6` when fewer positive scores than positions exist,
otherwise clipped at zero. -/
def effectiveScore (selected : List CandidateRow) (n : ℤ) (r : CandidateRow) : ℚ :=
  if ((validScores selected).length : ℤ) < n then
    rawScore r - qListMin (selected.map rawScore) + 1/1000000
  else max (rawScore r) 0

/-- The score_weighted position weight (engine.py lines 160-172). -/
def scoreWeightedWeight (selected : List CandidateRow) (n : ℤ)
    (regime : String) (target : ℚ) (r : CandidateRow) : ℚ :=
  if 0 < (selected.map (effectiveScore selected n)).sum then
    min ((effectiveScore selected n r / (selected.map (effectiveScore selected n)).sum)
      * target) (maxPositionSize regime)
  else 0

/-- The score_weighted diagnostics note (engine.py lines 150-158). -/
def scoreWeightedNote (selected : List CandidateRow) (n : ℤ) : String :=
  if ((validScores selected).length : ℤ) < n then noteShiftRanking else ""

/-- The per-strategy initial holdings (engine.py lines 113-197),
returning also `allocation_note` and `positive_score_count`. -/
def initialHoldings (selected : List CandidateRow) (n : ℤ) (strategy : String)
    (regime : String) (target sqrt10 : ℚ) : List Holding × String × ℕ :=
  if strategy = "equal_weight" then
    (selected.map (fun r =>
      ⟨r.ticker, calculatePositionSizeEqualWeight n regime, r.scoreFinal,
        r.sector, false, false, 0⟩), "", 0)
  else if strategy = "score_weighted" then
    if (validScores selected).isEmpty then
      (selected.map (fun r =>
        ⟨r.ticker, calculatePositionSizeEqualWeight n regime, some 0,
          r.sector, false, false, 0⟩),
       noteFallbackEqualWeight, 0)
    else
      (selected.map (fun r =>
        ⟨r.ticker, scoreWeightedWeight selected n regime target r,
          some (rawScore r), r.sector, false, false, 0⟩),
       scoreWeightedNote selected n, (validScores selected).length)
  else if strategy = "risk_parity" then
    (selected.map (fun r =>
      ⟨r.ticker, min (calculatePositionSizeRiskBased |r.scoreVolatility.getD (15/100)| sqrt10)
        (maxPositionSize regime), r.scoreFinal, r.sector, false, false, 0⟩), "", 0)
  else ([], "", 0)

/-- The RISK_OFF score adjustment (engine.py lines 205-216): in any
regime containing "RISK_OFF", each holding's `score` is overwritten
from the last matching candidate row; weights are untouched. -/
def riskOffAdjust (top : List CandidateRow) (regime : String)
    (hs : List Holding) : List Holding :=
  if containsRiskOff regime then
    hs.map (fun h =>
      match top.reverse.find? (fun r => r.ticker = h.ticker) with
      | some r => { h with score := some ((r.scoreValue.getD 0) * (4/10) +
          (r.scoreQuality.getD 0) * (4/10) + (r.scoreMomentum.getD 0) * (2/10)) }
      | none => h)
  else hs

/-- The per-asset cap pass (engine.py lines 226-230). -/
def assetCapPass (regime : String) (hs : List Holding) : List Holding :=
  hs.map (fun h =>
    if maxAssetExposureByRegime regime < h.weight then
      { h with weight := maxAssetExposureByRegime regime, assetCapped := true }
    else h)

/-- The sector cap pass (engine.py lines 232-251): exposures are
computed once, then every holding of an over-exposed sector is scaled by
`limit/exposure`. -/
def sectorCapPass (regime : String) (hs : List Holding) : List Holding :=
  hs.map (fun h =>
    if maxSectorExposureByRegime regime < sectorExposureOf hs h.sector then
      { h with
        weight := h.weight *
          (maxSectorExposureByRegime regime / sectorExposureOf hs h.sector),
        sectorCapped := true }
    else h)

/-- The invalid-total fallback (engine.py lines 264-271): when the total
weight is non-positive, every weight becomes an equal split of the
target. -/
def fallbackPass (target : ℚ) (hs : List Holding) : List Holding :=
  if totalWeightOf hs ≤ 0 then
    let ew := if hs.isEmpty then 0 else target / (hs.length : ℚ)
    hs.map (fun h => { h with weight := ew })
  else hs

/-- The target normalization (engine.py lines 273-280): rescale by
`target/total` when off by more than 1%, re-clamped by
`MAX_POSITION_SIZE`. -/
def normalizePass (regime : String) (target : ℚ) (hs : List Holding) :
    List Holding :=
  if 0 < totalWeightOf hs ∧ 1/100 < |totalWeightOf hs - target| then
    hs.map (fun h =>
      { h with
        weight := min (h.weight * (target / totalWeightOf hs)) (maxPositionSize regime) })
  else hs

/-- `uncapped = [h for h in holdings if h["weight"] < MAX_POSITION_SIZE
... - 0.001]` (engine.py line 292). -/
def uncappedOf (regime : String) (hs : List Holding) : List Holding :=
  hs.filter (fun h => h.weight < maxPositionSize regime - 1/1000)

/-- One body iteration of the redistribution loop (engine.py lines
288-303): the shortfall is shared among the uncapped holdings in
proportion to their weight, each re-clamped at `MAX_POSITION_SIZE`. -/
def redistributeStep (regime : String) (target finalTotal : ℚ)
    (hs : List Holding) : List Holding :=
  if 0 < totalWeightOf (uncappedOf regime hs) then
    hs.map (fun h =>
      if h.weight < maxPositionSize regime - 1/1000 then
        { h with
          weight := min (h.weight + (h.weight / totalWeightOf (uncappedOf regime hs))
            * (target - finalTotal)) (maxPositionSize regime) }
      else h)
  else hs

/-- The iterative redistribution loop (engine.py lines 283-306).  The
`while` loop is embedded structurally on the fuel `20 - iterations`
(the loop guard `iterations < max_iterations` is kept verbatim; it is
exactly the condition `0 < fuel` under the invariant
`iters + fuel = 20`, so fuel exhaustion and the Python guard agree). -/
def redistributeLoopAux (regime : String) (target : ℚ) :
    ℕ → List Holding → ℚ → ℕ → List Holding × ℚ × ℕ
  | 0, hs, finalTotal, iters => (hs, finalTotal, iters)
  | fuel + 1, hs, finalTotal, iters =>
    if 1/1000 < |finalTotal - target| ∧ iters < 20 then
      if (uncappedOf regime hs).isEmpty then (hs, finalTotal, iters)
      else
        let hs' := redistributeStep regime target finalTotal hs
        redistributeLoopAux regime target fuel hs' (totalWeightOf hs') (iters + 1)
    else (hs, finalTotal, iters)

/-- The redistribution loop as entered by the engine: `iterations = 0`,
`max_iterations = 20`. -/
def redistributeLoop (regime : String) (target : ℚ) (hs : List Holding)
    (finalTotal : ℚ) : List Holding × ℚ × ℕ :=
  redistributeLoopAux regime target 20 hs finalTotal 0

/-- The cleanup pass (engine.py lines 308-313): negative (or undefined)
weights become 0, then `round(w, 4)`. -/
def cleanupPass (hs : List Holding) : List Holding :=
  hs.map (fun h =>
    { h with weight := round4 (if h.weight < 0 then 0 else h.weight) })

def preCapHoldings (cands : List CandidateRow) (n : ℤ) (strategy regime : String)
    (pf : Option (List String)) (sqrt10 : ℚ) : List Holding × String × ℕ :=
  let r := initialHoldings (selectedCandidates cands n pf) n strategy regime
    (targetRVAllocation regime) sqrt10
  (riskOffAdjust (topAssets cands pf) regime r.1, r.2)

def assetCappedHoldings (cands : List CandidateRow) (n : ℤ)
    (strategy regime : String) (pf : Option (List String)) (sqrt10 : ℚ) :
    List Holding :=
  assetCapPass regime (preCapHoldings cands n strategy regime pf sqrt10).1

def cappedHoldings (cands : List CandidateRow) (n : ℤ) (strategy regime : String)
    (pf : Option (List String)) (sqrt10 : ℚ) : List Holding :=
  sectorCapPass regime (assetCappedHoldings cands n strategy regime pf sqrt10)

def normalizedHoldings (cands : List CandidateRow) (n : ℤ)
    (strategy regime : String) (pf : Option (List String)) (sqrt10 : ℚ) :
    List Holding :=
  normalizePass regime (targetRVAllocation regime)
    (fallbackPass (targetRVAllocation regime)
      (cappedHoldings cands n strategy regime pf sqrt10))

/-- Holdings after the redistribution loop and cleanup, with the final
`sector_exposure_pct` metadata (engine.py lines 283-332). -/
def finalHoldings (cands : List CandidateRow) (n : ℤ) (strategy regime : String)
    (pf : Option (List String)) (sqrt10 : ℚ) : List Holding :=
  let hs5 := normalizedHoldings cands n strategy regime pf sqrt10
  let hs6 := cleanupPass (redistributeLoop regime (targetRVAllocation regime)
    hs5 (totalWeightOf hs5)).1
  hs6.map (fun h => { h with sectorExposurePct := sectorExposureOf hs6 h.sector })

/-- The diagnostics dict (engine.py lines 338-357). -/
def buildDiagnostics (cands : List CandidateRow) (n : ℤ)
    (strategy regime : String) (pf : Option (List String)) (sqrt10 : ℚ) :
    AllocationDiagnostics :=
  let target := targetRVAllocation regime
  let hs := finalHoldings cands n strategy regime pf sqrt10
  let achieved := totalWeightOf hs
  let gap := target - achieved
  let note0 := (preCapHoldings cands n strategy regime pf sqrt10).2.1
  let note := if note0 = "" ∧ 1/50 < gap then noteBelowTarget else note0
  { targetRvAllocation := round4 target,
    achievedRvAllocation := round4 achieved,
    allocationGap := round4 gap,
    allocationNote := note,
    positiveScoreAssets := (preCapHoldings cands n strategy regime pf sqrt10).2.2,
    assetCapsApplied := (hs.filter (·.assetCapped)).length,
    sectorCapsApplied := (hs.filter (·.sectorCapped)).length }

/-- `build_portfolio_from_scores` (engine.py lines 27-359), embedded
from the ranked-candidate list onward (`db`/`date` interaction and the
regime lookup for `regime=None` are outside the embedding; `regime` is
the resolved regime string). -/
def buildPortfolioFromScores (cands : List CandidateRow) (n : ℤ)
    (strategy regime : String) (pf : Option (List String)) (sqrt10 : ℚ) :
    BuildOutput :=
  if cands.isEmpty then .noRanking
  else
    let hs := finalHoldings cands n strategy regime pf sqrt10
    .result hs (((hs.map (·.sector)).dedup).map (fun s => (s, sectorExposureOf hs s)))
      (buildDiagnostics cands n strategy regime pf sqrt10)

/-! ### Termination and iteration bound of the redistribution loop -/

theorem redistributeLoopAux_spec (regime : String) (target : ℚ) :
    ∀ (fuel : ℕ) (hs : List Holding) (t0 : ℚ) (iters : ℕ), iters + fuel = 20 →
      (redistributeLoopAux regime target fuel hs t0 iters).2.2 ≤ 20 ∧
      (|(redistributeLoopAux regime target fuel hs t0 iters).2.1 - target| ≤ 1/1000 ∨
        (redistributeLoopAux regime target fuel hs t0 iters).2.2 = 20 ∨
        (uncappedOf regime
          (redistributeLoopAux regime target fuel hs t0 iters).1).isEmpty) := by
  intro fuel
  induction fuel with
  | zero =>
    intro hs t0 iters hit
    refine ⟨?_, Or.inr (Or.inl ?_)⟩
    · show iters ≤ 20
      omega
    · show iters = 20
      omega
  | succ fuel ih =>
    intro hs t0 iters hit
    rw [redistributeLoopAux]
    split_ifs with hguard hemp
    · refine ⟨?_, Or.inr (Or.inr hemp)⟩
      show iters ≤ 20
      omega
    · exact ih _ _ (iters + 1) (by omega)
    · refine ⟨?_, ?_⟩
      · show iters ≤ 20
        omega
      rcases not_and_or.mp hguard with hgap | hit20
      · exact Or.inl (le_of_not_lt hgap)
      · refine Or.inr (Or.inl ?_)
        show iters = 20
        omega

/-- **C3.** The redistribution loop of `build_portfolio_from_scores`
always terminates after at most 20 iterations: it exits with the gap
closed to within 0.1%, or with the iteration cap reached, or with no
uncapped holdings remaining. -/
theorem claim_C3_loop_terminates (regime : String) (target : ℚ)
    (hs : List Holding) (t0 : ℚ) :
    (redistributeLoop regime target hs t0).2.2 ≤ 20 ∧
      (|(redistributeLoop regime target hs t0).2.1 - target| ≤ 1/1000 ∨
        (redistributeLoop regime target hs t0).2.2 = 20 ∨
        (uncappedOf regime (redistributeLoop regime target hs t0).1).isEmpty) :=
  redistributeLoopAux_spec regime target 20 hs t0 0 rfl

/-! ### Allocation conservation (C2) -/

theorem noteBelowTarget_ne : noteBelowTarget ≠ "" := by decide

/-- **C2 (amended).** On every non-empty candidate set,
`build_portfolio_from_scores` returns the result triple built from
`finalHoldings`/`buildDiagnostics`, and either the diagnostics note is
non-empty, or the shortfall `target - sum(weights)` is at most 0.02.
(The claim's 0.001 tolerance is wrong: the note is only written when the
shortfall exceeds 0.02, so gaps in (0.001, 0.02] come with an empty
note.) -/
theorem claim_C2_amended_conservation (cands : List CandidateRow) (n : ℤ)
    (strategy regime : String) (pf : Option (List String)) (sqrt10 : ℚ)
    (hne : cands ≠ []) :
    buildPortfolioFromScores cands n strategy regime pf sqrt10 =
      .result (finalHoldings cands n strategy regime pf sqrt10)
        ((((finalHoldings cands n strategy regime pf sqrt10).map
          (fun h => h.sector)).dedup).map (fun s =>
            (s, sectorExposureOf (finalHoldings cands n strategy regime pf sqrt10) s)))
        (buildDiagnostics cands n strategy regime pf sqrt10) ∧
    ((buildDiagnostics cands n strategy regime pf sqrt10).allocationNote ≠ "" ∨
      targetRVAllocation regime -
        totalWeightOf (finalHoldings cands n strategy regime pf sqrt10) ≤ 1/50) := by
  constructor
  · rw [buildPortfolioFromScores, if_neg]
    simp [hne]
  · simp only [buildDiagnostics]
    by_cases hc : (preCapHoldings cands n strategy regime pf sqrt10).2.1 = "" ∧
        1/50 < targetRVAllocation regime -
          totalWeightOf (finalHoldings cands n strategy regime pf sqrt10)
    · rw [if_pos hc]
      exact Or.inl noteBelowTarget_ne
    · rw [if_neg hc]
      rcases not_and_or.mp hc with hnote | hgap
      · exact Or.inl hnote
      · exact Or.inr (le_of_not_lt hgap)

/-- A generic candidate row for concrete runs. -/
def sampleRow (t sec : String) (sf : ℚ) : CandidateRow :=
  ⟨t, some sf, some 0, some 0, some 0, some 0, some 0, sec⟩

/-- Six candidates in six different sectors. -/
def conservationCex : List CandidateRow :=
  [sampleRow "U1" "SA" 6, sampleRow "U2" "SB" 5, sampleRow "U3" "SC" 4,
   sampleRow "U4" "SD" 3, sampleRow "U5" "SE" 2, sampleRow "U6" "SF" 1]

theorem containsRiskOff_transition : containsRiskOff "TRANSITION" = false := by
  decide

theorem maxPositionSize_transition : maxPositionSize "TRANSITION" = 8/100 := rfl

theorem maxAssetExposure_transition :
    maxAssetExposureByRegime "TRANSITION" = 6/100 := rfl

theorem maxSectorExposure_transition :
    maxSectorExposureByRegime "TRANSITION" = 20/100 := rfl

theorem targetRVAllocation_transition :
    targetRVAllocation "TRANSITION" = 50/100 := rfl

theorem conservationCex_selected :
    selectedCandidates conservationCex 6 none = conservationCex := by
  norm_num [selectedCandidates, topAssets, conservationCex, sampleRow]

theorem conservationCex_preCap :
    preCapHoldings conservationCex 6 "equal_weight" "TRANSITION" none 4 =
      ([⟨"U1", 2/25, some 6, "SA", false, false, 0⟩,
        ⟨"U2", 2/25, some 5, "SB", false, false, 0⟩,
        ⟨"U3", 2/25, some 4, "SC", false, false, 0⟩,
        ⟨"U4", 2/25, some 3, "SD", false, false, 0⟩,
        ⟨"U5", 2/25, some 2, "SE", false, false, 0⟩,
        ⟨"U6", 2/25, some 1, "SF", false, false, 0⟩], "", 0) := by
  rw [preCapHoldings, conservationCex_selected]
  norm_num [initialHoldings, conservationCex, sampleRow,
    calculatePositionSizeEqualWeight, maxPositionSize_transition, min_def,
    riskOffAdjust, containsRiskOff_transition]

theorem conservationCex_capped :
    cappedHoldings conservationCex 6 "equal_weight" "TRANSITION" none 4 =
      [⟨"U1", 3/50, some 6, "SA", true, false, 0⟩,
       ⟨"U2", 3/50, some 5, "SB", true, false, 0⟩,
       ⟨"U3", 3/50, some 4, "SC", true, false, 0⟩,
       ⟨"U4", 3/50, some 3, "SD", true, false, 0⟩,
       ⟨"U5", 3/50, some 2, "SE", true, false, 0⟩,
       ⟨"U6", 3/50, some 1, "SF", true, false, 0⟩] := by
  rw [cappedHoldings, assetCappedHoldings, conservationCex_preCap]
  norm_num [assetCapPass, sectorCapPass, sectorExposureOf, totalWeightOf,
    maxAssetExposure_transition, maxSectorExposure_transition]
  simp
  norm_num

theorem conservationCex_normalized :
    normalizedHoldings conservationCex 6 "equal_weight" "TRANSITION" none 4 =
      [⟨"U1", 2/25, some 6, "SA", true, false, 0⟩,
       ⟨"U2", 2/25, some 5, "SB", true, false, 0⟩,
       ⟨"U3", 2/25, some 4, "SC", true, false, 0⟩,
       ⟨"U4", 2/25, some 3, "SD", true, false, 0⟩,
       ⟨"U5", 2/25, some 2, "SE", true, false, 0⟩,
       ⟨"U6", 2/25, some 1, "SF", true, false, 0⟩] := by
  rw [normalizedHoldings, conservationCex_capped]
  norm_num [fallbackPass, normalizePass, totalWeightOf,
    targetRVAllocation_transition, maxPositionSize_transition, min_def, abs_of_nonneg]
  try simp
  try norm_num

theorem conservationCex_final :
    finalHoldings conservationCex 6 "equal_weight" "TRANSITION" none 4 =
      [⟨"U1", 2/25, some 6, "SA", true, false, 2/25⟩,
       ⟨"U2", 2/25, some 5, "SB", true, false, 2/25⟩,
       ⟨"U3", 2/25, some 4, "SC", true, false, 2/25⟩,
       ⟨"U4", 2/25, some 3, "SD", true, false, 2/25⟩,
       ⟨"U5", 2/25, some 2, "SE", true, false, 2/25⟩,
       ⟨"U6", 2/25, some 1, "SF", true, false, 2/25⟩] := by
  rw [finalHoldings, conservationCex_normalized]
  norm_num [redistributeLoop, redistributeLoopAux, uncappedOf, totalWeightOf,
    targetRVAllocation_transition, maxPositionSize_transition, cleanupPass,
    round4, roundHalfEven, sectorExposureOf, abs_of_nonneg]
  try simp
  try norm_num

/-- **C2 (counterexample).** Six equal-weight candidates in distinct
sectors under TRANSITION: all six end at the 0.08 position cap, the sum
is 0.48 = target - 0.02, outside the claimed 0.001 tolerance, and the
diagnostics note is empty. -/
theorem claim_C2_counterexample :
    (buildDiagnostics conservationCex 6 "equal_weight" "TRANSITION" none 4).allocationNote
        = "" ∧
      ¬(|totalWeightOf (finalHoldings conservationCex 6 "equal_weight" "TRANSITION" none 4)
          - targetRVAllocation "TRANSITION"| ≤ 1/1000) := by
  constructor
  · rw [buildDiagnostics]
    norm_num [conservationCex_final, conservationCex_preCap, totalWeightOf,
      targetRVAllocation_transition]
  · rw [conservationCex_final]
    norm_num [totalWeightOf, targetRVAllocation_transition, abs_of_nonneg]

/-- Witness for the amended C2 at a concrete input. -/
theorem claim_C2_witness :
    buildPortfolioFromScores conservationCex 6 "equal_weight" "TRANSITION" none 4 =
      .result (finalHoldings conservationCex 6 "equal_weight" "TRANSITION" none 4)
        ((((finalHoldings conservationCex 6 "equal_weight" "TRANSITION" none 4).map
          (fun h => h.sector)).dedup).map (fun s =>
            (s, sectorExposureOf
              (finalHoldings conservationCex 6 "equal_weight" "TRANSITION" none 4) s)))
        (buildDiagnostics conservationCex 6 "equal_weight" "TRANSITION" none 4) ∧
    ((buildDiagnostics conservationCex 6 "equal_weight" "TRANSITION" none 4).allocationNote
        ≠ "" ∨
      targetRVAllocation "TRANSITION" -
        totalWeightOf (finalHoldings conservationCex 6 "equal_weight" "TRANSITION" none 4)
        ≤ 1/50) :=
  claim_C2_amended_conservation conservationCex 6 "equal_weight" "TRANSITION" none 4
    (by simp [conservationCex])


/-! ### Error handling of caller-contract violations (C7) -/

theorem initialHoldings_unknown {strategy : String}
    (selected : List CandidateRow) (n : ℤ) (regime : String) (target sqrt10 : ℚ)
    (h1 : strategy ≠ "equal_weight") (h2 : strategy ≠ "score_weighted")
    (h3 : strategy ≠ "risk_parity") :
    initialHoldings selected n strategy regime target sqrt10 = ([], "", 0) := by
  rw [initialHoldings, if_neg h1, if_neg h2, if_neg h3]

theorem riskOffAdjust_nil (top : List CandidateRow) (regime : String) :
    riskOffAdjust top regime [] = [] := by
  unfold riskOffAdjust
  split <;> rfl

theorem fallbackPass_nil (target : ℚ) : fallbackPass target [] = [] := by
  unfold fallbackPass
  split <;> rfl

theorem normalizePass_nil (regime : String) (target : ℚ) :
    normalizePass regime target [] = [] := by
  unfold normalizePass
  split <;> rfl

theorem redistributeLoopAux_nil (regime : String) (target : ℚ) :
    ∀ (fuel : ℕ) (t0 : ℚ) (iters : ℕ),
      redistributeLoopAux regime target fuel [] t0 iters = ([], t0, iters) := by
  intro fuel t0 iters
  cases fuel with
  | zero => rfl
  | succ fuel =>
    rw [redistributeLoopAux]
    split_ifs with hguard hemp
    · rfl
    · exact absurd rfl hemp
    · rfl

theorem finalHoldings_unknown_strategy (cands : List CandidateRow) (n : ℤ)
    {strategy : String} (regime : String) (pf : Option (List String)) (sqrt10 : ℚ)
    (h1 : strategy ≠ "equal_weight") (h2 : strategy ≠ "score_weighted")
    (h3 : strategy ≠ "risk_parity") :
    finalHoldings cands n strategy regime pf sqrt10 = [] := by
  have hpre : (preCapHoldings cands n strategy regime pf sqrt10).1 = [] := by
    rw [preCapHoldings, initialHoldings_unknown _ _ _ _ _ h1 h2 h3,
      riskOffAdjust_nil]
  simp only [finalHoldings, normalizedHoldings, cappedHoldings,
    assetCappedHoldings]
  rw [hpre]
  show (cleanupPass (redistributeLoop regime (targetRVAllocation regime)
    (normalizePass _ _ (fallbackPass _ (sectorCapPass _ (assetCapPass _ [])))) _).1).map _ = []
  rw [show assetCapPass regime [] = [] from rfl, show sectorCapPass regime [] = [] from rfl,
    fallbackPass_nil, normalizePass_nil, redistributeLoop, redistributeLoopAux_nil]
  rfl

theorem totalWeightOf_zero {hs : List Holding} (h : ∀ x ∈ hs, x.weight = 0) :
    totalWeightOf hs = 0 := by
  refine List.sum_eq_zero ?_
  intro w hw
  obtain ⟨x, hx, rfl⟩ := List.mem_map.mp hw
  exact h x hx

theorem sectorExposureOf_zero {hs : List Holding}
    (h : ∀ x ∈ hs, x.weight = 0) (s : String) : sectorExposureOf hs s = 0 := by
  refine List.sum_eq_zero ?_
  intro w hw
  obtain ⟨x, hx, rfl⟩ := List.mem_map.mp hw
  exact h x (List.mem_filter.mp hx).1

theorem assetCapPass_id {regime : String} {hs : List Holding}
    (h : ∀ x ∈ hs, ¬ (maxAssetExposureByRegime regime < x.weight)) :
    assetCapPass regime hs = hs := by
  unfold assetCapPass
  conv_rhs => rw [← List.map_id hs]
  refine List.map_congr_left ?_
  intro x hx
  rw [if_neg (h x hx)]
  rfl

theorem sectorCapPass_id {regime : String} {hs : List Holding}
    (h : ∀ x ∈ hs,
      ¬ (maxSectorExposureByRegime regime < sectorExposureOf hs x.sector)) :
    sectorCapPass regime hs = hs := by
  unfold sectorCapPass
  conv_rhs => rw [← List.map_id hs]
  refine List.map_congr_left ?_
  intro x hx
  rw [if_neg (h x hx)]
  rfl

theorem fallbackPass_of_nonpos {target : ℚ} {hs : List Holding}
    (h : totalWeightOf hs ≤ 0) :
    fallbackPass target hs = hs.map (fun x =>
      { x with weight := if hs.isEmpty then 0 else target / (hs.length : ℚ) }) := by
  unfold fallbackPass
  rw [if_pos h]

theorem normalizePass_id {regime : String} {target : ℚ} {hs : List Holding}
    (h : ¬ (0 < totalWeightOf hs ∧ 1/100 < |totalWeightOf hs - target|)) :
    normalizePass regime target hs = hs := by
  unfold normalizePass
  rw [if_neg h]

theorem redistributeLoopAux_no_gap (regime : String) (target : ℚ)
    (fuel : ℕ) (hs : List Holding) (t0 : ℚ) (iters : ℕ)
    (h : ¬ (1/1000 < |t0 - target|)) :
    redistributeLoopAux regime target fuel hs t0 iters = (hs, t0, iters) := by
  cases fuel with
  | zero => rfl
  | succ fuel =>
    rw [redistributeLoopAux, if_neg]
    rintro ⟨hgap, -⟩
    exact h hgap

theorem mem_riskOffAdjust {top : List CandidateRow} {regime : String}
    {hs : List Holding} {x : Holding} (hx : x ∈ riskOffAdjust top regime hs) :
    ∃ y ∈ hs, x.weight = y.weight ∧ x.sector = y.sector ∧
      x.assetCapped = y.assetCapped ∧ x.sectorCapped = y.sectorCapped := by
  unfold riskOffAdjust at hx
  split at hx
  · obtain ⟨y, hy, rfl⟩ := List.mem_map.mp hx
    refine ⟨y, hy, ?_⟩
    cases top.reverse.find? (fun r => r.ticker = y.ticker) <;> exact ⟨rfl, rfl, rfl, rfl⟩
  · exact ⟨x, hx, rfl, rfl, rfl, rfl⟩

theorem riskOffAdjust_length (top : List CandidateRow) (regime : String)
    (hs : List Holding) : (riskOffAdjust top regime hs).length = hs.length := by
  unfold riskOffAdjust
  split
  · exact List.length_map _ _
  · rfl

theorem totalWeightOf_set_const (hs : List Holding) (c : ℚ) :
    totalWeightOf (hs.map (fun x => { x with weight := c })) =
      (hs.length : ℚ) * c := by
  unfold totalWeightOf
  rw [List.map_map]
  have : ((fun h : Holding => h.weight) ∘ fun x : Holding => { x with weight := c })
      = fun _ : Holding => c := rfl
  rw [this, List.map_const', List.sum_replicate, nsmul_eq_mul]

theorem equalSplitAfter (regime : String) (P : List Holding)
    (htot : totalWeightOf P ≤ 0) (hPne : P ≠ []) :
    ∀ h ∈ (cleanupPass (redistributeLoop regime (targetRVAllocation regime)
        (normalizePass regime (targetRVAllocation regime)
          (fallbackPass (targetRVAllocation regime) P))
        (totalWeightOf (normalizePass regime (targetRVAllocation regime)
          (fallbackPass (targetRVAllocation regime) P)))).1),
      h.weight = round4 (targetRVAllocation regime / (P.length : ℚ)) := by
  have hLcast : ((P.length : ℕ) : ℚ) ≠ 0 := by
    exact_mod_cast Nat.pos_iff_ne_zero.mp (List.length_pos.mpr hPne)
  have hfb : fallbackPass (targetRVAllocation regime) P =
      P.map (fun x =>
        { x with weight := targetRVAllocation regime / (P.length : ℚ) }) := by
    rw [fallbackPass_of_nonpos htot]
    have hie : P.isEmpty = false := by
      rw [List.isEmpty_eq_false]
      exact hPne
    rw [hie]
    simp
  have htotQ : totalWeightOf (P.map (fun x =>
      { x with weight := targetRVAllocation regime / (P.length : ℚ) })) =
      targetRVAllocation regime := by
    rw [totalWeightOf_set_const, mul_comm, div_mul_cancel₀ _ hLcast]
  have hnorm : normalizePass regime (targetRVAllocation regime)
      (P.map (fun x =>
        { x with weight := targetRVAllocation regime / (P.length : ℚ) })) =
      P.map (fun x =>
        { x with weight := targetRVAllocation regime / (P.length : ℚ) }) := by
    refine normalizePass_id ?_
    rw [htotQ]
    rintro ⟨-, habs⟩
    rw [sub_self, abs_zero] at habs
    norm_num at habs
  have hloop : redistributeLoop regime (targetRVAllocation regime)
      (P.map (fun x =>
        { x with weight := targetRVAllocation regime / (P.length : ℚ) }))
      (totalWeightOf (P.map (fun x =>
        { x with weight := targetRVAllocation regime / (P.length : ℚ) }))) =
      (P.map (fun x =>
        { x with weight := targetRVAllocation regime / (P.length : ℚ) }),
       totalWeightOf (P.map (fun x =>
        { x with weight := targetRVAllocation regime / (P.length : ℚ) })), 0) := by
    refine redistributeLoopAux_no_gap _ _ _ _ _ _ ?_
    rw [htotQ, sub_self, abs_zero]
    norm_num
  intro h hh
  rw [hfb, hnorm, hloop] at hh
  unfold cleanupPass at hh
  obtain ⟨q, hq, rfl⟩ := List.mem_map.mp hh
  obtain ⟨x, -, rfl⟩ := List.mem_map.mp hq
  have hnn : ¬ (targetRVAllocation regime / (P.length : ℚ) < 0) := by
    refine not_lt.mpr (div_nonneg (targetRVAllocation_pos regime).le ?_)
    exact_mod_cast Nat.zero_le P.length
  show round4 (if targetRVAllocation regime / (P.length : ℚ) < 0 then 0
    else targetRVAllocation regime / (P.length : ℚ)) = _
  rw [if_neg hnn]

/-- **C7 (amended).** `build_portfolio_from_scores` does not raise on
caller-contract violations: an unknown strategy name silently produces
an empty holdings list (with only diagnostics), and a negative position
count under `equal_weight` silently produces the degenerate equal-split
fallback weight `round(target/len, 4)` on the remaining rows, instead of
failing fast. -/
theorem claim_C7_amended_no_raise (cands : List CandidateRow) (n : ℤ)
    (strategy regime : String) (pf : Option (List String)) (sqrt10 : ℚ) :
    ((strategy ≠ "equal_weight" ∧ strategy ≠ "score_weighted" ∧
        strategy ≠ "risk_parity") →
      finalHoldings cands n strategy regime pf sqrt10 = []) ∧
    (n < 0 → strategy = "equal_weight" →
      ∀ h ∈ finalHoldings cands n strategy regime pf sqrt10,
        h.weight = round4 (targetRVAllocation regime /
          (((selectedCandidates cands n pf).length : ℕ) : ℚ))) := by
  constructor
  · rintro ⟨h1, h2, h3⟩
    exact finalHoldings_unknown_strategy cands n regime pf sqrt10 h1 h2 h3
  · intro hn hstrat
    subst hstrat
    have hw0 : calculatePositionSizeEqualWeight n regime = 0 := by
      rw [calculatePositionSizeEqualWeight, if_pos hn.le]
    have hpre1 : (preCapHoldings cands n "equal_weight" regime pf sqrt10).1 =
        riskOffAdjust (topAssets cands pf) regime
          ((selectedCandidates cands n pf).map (fun r =>
            ⟨r.ticker, 0, r.scoreFinal, r.sector, false, false, 0⟩)) := by
      simp [preCapHoldings, initialHoldings, hw0]
    have hz : ∀ x ∈ (preCapHoldings cands n "equal_weight" regime pf sqrt10).1,
        x.weight = 0 := by
      rw [hpre1]
      intro x hx
      obtain ⟨y, hy, hwx, -⟩ := mem_riskOffAdjust hx
      obtain ⟨r, -, rfl⟩ := List.mem_map.mp hy
      rw [hwx]
    have ha : assetCapPass regime
        (preCapHoldings cands n "equal_weight" regime pf sqrt10).1 =
        (preCapHoldings cands n "equal_weight" regime pf sqrt10).1 :=
      assetCapPass_id (fun x hx => by
        rw [hz x hx]; exact not_lt.mpr (maxAssetExposure_nonneg regime))
    have hsec : sectorCapPass regime
        (preCapHoldings cands n "equal_weight" regime pf sqrt10).1 =
        (preCapHoldings cands n "equal_weight" regime pf sqrt10).1 :=
      sectorCapPass_id (fun x hx => by
        rw [sectorExposureOf_zero hz]
        exact not_lt.mpr (maxSectorExposure_nonneg regime))
    have hcap : cappedHoldings cands n "equal_weight" regime pf sqrt10 =
        (preCapHoldings cands n "equal_weight" regime pf sqrt10).1 := by
      rw [cappedHoldings, assetCappedHoldings, ha, hsec]
    have htot0 : totalWeightOf
        (preCapHoldings cands n "equal_weight" regime pf sqrt10).1 = 0 :=
      totalWeightOf_zero hz
    by_cases hPne : (preCapHoldings cands n "equal_weight" regime pf sqrt10).1 = []
    · -- empty selection: the pipeline returns no holdings at all
      have hfin : finalHoldings cands n "equal_weight" regime pf sqrt10 = [] := by
        simp only [finalHoldings, normalizedHoldings]
        rw [hcap, hPne, fallbackPass_nil, normalizePass_nil, redistributeLoop,
          redistributeLoopAux_nil]
        rfl
      rw [hfin]
      intro h hh
      exact absurd hh (List.not_mem_nil h)
    · intro h hh
      simp only [finalHoldings, normalizedHoldings] at hh
      rw [hcap] at hh
      obtain ⟨g, hg, rfl⟩ := List.mem_map.mp hh
      have hgw := equalSplitAfter regime
        (preCapHoldings cands n "equal_weight" regime pf sqrt10).1
        (le_of_eq htot0) hPne g hg
      have hL : (preCapHoldings cands n "equal_weight" regime pf sqrt10).1.length =
          (selectedCandidates cands n pf).length := by
        rw [hpre1, riskOffAdjust_length, List.length_map]
      show g.weight = _
      rw [hgw, hL]

/-- One candidate row for the unknown-strategy run. -/
def strategyCex : List CandidateRow := [sampleRow "V1" "SA" 1]

theorem strategyCex_meta :
    (preCapHoldings strategyCex 10 "momentum_tilt" "TRANSITION" none 4).2 = ("", 0) := by
  simp only [preCapHoldings]
  rw [initialHoldings_unknown _ _ _ _ _ (by decide) (by decide) (by decide)]

/-- **C7 (counterexample).** Calling the allocator with the unknown
strategy name "momentum_tilt" does not raise: it returns a normal result
triple with an empty holdings list and a below-target diagnostics
note. -/
theorem claim_C7_counterexample :
    buildPortfolioFromScores strategyCex 10 "momentum_tilt" "TRANSITION" none 4 =
      .result [] [] ⟨1/2, 0, 1/2, noteBelowTarget, 0, 0, 0⟩ := by
  have hfin : finalHoldings strategyCex 10 "momentum_tilt" "TRANSITION" none 4 = [] :=
    finalHoldings_unknown_strategy _ _ _ _ _ (by decide) (by decide) (by decide)
  rw [buildPortfolioFromScores, if_neg (by decide)]
  rw [buildDiagnostics, hfin]
  rw [strategyCex_meta]
  norm_num [totalWeightOf, targetRVAllocation_transition, round4, roundHalfEven,
    noteBelowTarget]

/-- Witness for the amended C7 at concrete inputs. -/
theorem claim_C7_witness :
    finalHoldings [sampleRow "W1" "SA" 1] 5 "bogus" "TRANSITION" none 4 = [] ∧
    (∀ h ∈ finalHoldings [sampleRow "W1" "SA" 1, sampleRow "W2" "SB" 2] (-1)
        "equal_weight" "TRANSITION" none 4,
      h.weight = round4 (targetRVAllocation "TRANSITION" /
        (((selectedCandidates [sampleRow "W1" "SA" 1, sampleRow "W2" "SB" 2]
          (-1) none).length : ℕ) : ℚ))) :=
  ⟨(claim_C7_amended_no_raise [sampleRow "W1" "SA" 1] 5 "bogus" "TRANSITION"
      none 4).1 ⟨by decide, by decide, by decide⟩,
   (claim_C7_amended_no_raise [sampleRow "W1" "SA" 1, sampleRow "W2" "SB" 2]
      (-1) "equal_weight" "TRANSITION" none 4).2 (by norm_num) rfl⟩

/-! ### Cap respect (C1) -/

theorem foldlMin_le_init (xs : List ℚ) : ∀ a : ℚ, xs.foldl min a ≤ a := by
  induction xs with
  | nil => intro a; exact le_refl a
  | cons x xs ih =>
    intro a
    calc (x :: xs).foldl min a = xs.foldl min (min a x) := rfl
    _ ≤ min a x := ih _
    _ ≤ a := min_le_left _ _

theorem foldlMin_le_mem (xs : List ℚ) :
    ∀ (a x : ℚ), x ∈ xs → xs.foldl min a ≤ x := by
  induction xs with
  | nil => intro a x hx; cases hx
  | cons y ys ih =>
    intro a x hx
    rcases List.mem_cons.mp hx with rfl | hx
    · calc (x :: ys).foldl min a = ys.foldl min (min a x) := rfl
      _ ≤ min a x := foldlMin_le_init ys _
      _ ≤ x := min_le_right _ _
    · exact ih _ x hx

theorem qListMin_le {l : List ℚ} {x : ℚ} (hx : x ∈ l) : qListMin l ≤ x := by
  cases l with
  | nil => cases hx
  | cons y ys =>
    rcases List.mem_cons.mp hx with rfl | hx
    · exact foldlMin_le_init ys x
    · exact foldlMin_le_mem ys y x hx

theorem calculateEqualWeight_nonneg (n : ℤ) (regime : String) :
    0 ≤ calculatePositionSizeEqualWeight n regime := by
  unfold calculatePositionSizeEqualWeight
  split_ifs with h
  · exact le_refl 0
  · push_neg at h
    have hn : (0 : ℚ) < (n : ℚ) := by exact_mod_cast h
    exact le_min (by positivity) (maxPositionSize_nonneg regime)

theorem riskBased_nonneg (vol sqrt10 : ℚ) :
    0 ≤ calculatePositionSizeRiskBased vol sqrt10 := by
  unfold calculatePositionSizeRiskBased
  split_ifs
  · norm_num [minPositionSizeConst]
  · exact le_trans (by norm_num [minPositionSizeConst]) (le_max_left _ _)

theorem effectiveScore_nonneg (selected : List CandidateRow) (n : ℤ)
    {r : CandidateRow} (hr : r ∈ selected) :
    0 ≤ effectiveScore selected n r := by
  unfold effectiveScore
  split_ifs
  · have hmin : qListMin (selected.map rawScore) ≤ rawScore r :=
      qListMin_le (List.mem_map_of_mem rawScore hr)
    linarith
  · exact le_max_right _ _

theorem scoreWeightedWeight_nonneg (selected : List CandidateRow) (n : ℤ)
    (regime : String) {target : ℚ} (htarget : 0 ≤ target) {r : CandidateRow}
    (hr : r ∈ selected) :
    0 ≤ scoreWeightedWeight selected n regime target r := by
  unfold scoreWeightedWeight
  split_ifs with h
  · refine le_min (mul_nonneg (div_nonneg (effectiveScore_nonneg selected n hr) h.le) htarget)
      (maxPositionSize_nonneg regime)
  · exact le_refl 0

theorem initialHoldings_weights_nonneg (selected : List CandidateRow) (n : ℤ)
    (strategy regime : String) {target : ℚ} (sqrt10 : ℚ) (htarget : 0 ≤ target) :
    ∀ h ∈ (initialHoldings selected n strategy regime target sqrt10).1,
      0 ≤ h.weight := by
  unfold initialHoldings
  split_ifs with h1 h2 h3 h4 <;> intro h hh
  · obtain ⟨r, hr, rfl⟩ := List.mem_map.mp hh
    exact calculateEqualWeight_nonneg n regime
  · obtain ⟨r, hr, rfl⟩ := List.mem_map.mp hh
    exact calculateEqualWeight_nonneg n regime
  · obtain ⟨r, hr, rfl⟩ := List.mem_map.mp hh
    exact scoreWeightedWeight_nonneg selected n regime htarget hr
  · obtain ⟨r, hr, rfl⟩ := List.mem_map.mp hh
    exact le_min (riskBased_nonneg _ _) (maxPositionSize_nonneg regime)
  · cases hh

theorem preCap_weights_nonneg (cands : List CandidateRow) (n : ℤ)
    (strategy regime : String) (pf : Option (List String)) (sqrt10 : ℚ) :
    ∀ h ∈ (preCapHoldings cands n strategy regime pf sqrt10).1, 0 ≤ h.weight := by
  intro h hh
  simp only [preCapHoldings] at hh
  obtain ⟨y, hy, hwy, -⟩ := mem_riskOffAdjust hh
  rw [hwy]
  exact initialHoldings_weights_nonneg _ n strategy regime sqrt10
    (targetRVAllocation_pos regime).le y hy

theorem assetCapPass_le (regime : String) (hs : List Holding) :
    ∀ h ∈ assetCapPass regime hs, h.weight ≤ maxAssetExposureByRegime regime := by
  intro h hh
  obtain ⟨x, hx, rfl⟩ := List.mem_map.mp hh
  split_ifs with hc
  · exact le_refl _
  · exact le_of_not_lt hc

theorem assetCapPass_nonneg {regime : String} {hs : List Holding}
    (h : ∀ x ∈ hs, 0 ≤ x.weight) :
    ∀ x ∈ assetCapPass regime hs, 0 ≤ x.weight := by
  intro x hx
  obtain ⟨y, hy, rfl⟩ := List.mem_map.mp hx
  split_ifs with hc
  · exact maxAssetExposure_nonneg regime
  · exact h y hy

theorem sectorCapPass_le {regime : String} {hs : List Holding} {A : ℚ}
    (hnn : ∀ x ∈ hs, 0 ≤ x.weight) (hub : ∀ x ∈ hs, x.weight ≤ A) :
    ∀ x ∈ sectorCapPass regime hs, 0 ≤ x.weight ∧ x.weight ≤ A := by
  intro x hx
  obtain ⟨y, hy, rfl⟩ := List.mem_map.mp hx
  split_ifs with hc
  · have hE : 0 < sectorExposureOf hs y.sector :=
      lt_of_le_of_lt (maxSectorExposure_nonneg regime) hc
    have hfac : maxSectorExposureByRegime regime / sectorExposureOf hs y.sector ≤ 1 :=
      (div_le_one hE).mpr hc.le
    have hfac0 : 0 ≤ maxSectorExposureByRegime regime / sectorExposureOf hs y.sector :=
      div_nonneg (maxSectorExposure_nonneg regime) hE.le
    constructor
    · exact mul_nonneg (hnn y hy) hfac0
    · calc y.weight * (maxSectorExposureByRegime regime / sectorExposureOf hs y.sector)
          ≤ y.weight * 1 := mul_le_mul_of_nonneg_left hfac (hnn y hy)
      _ = y.weight := mul_one _
      _ ≤ A := hub y hy
  · exact ⟨hnn y hy, hub y hy⟩

theorem sectorExposureOf_map_sector_eq (f : Holding → Holding)
    (hf : ∀ h, (f h).sector = h.sector) (hs : List Holding) (s : String) :
    sectorExposureOf (hs.map f) s =
      ((hs.filter (fun h => h.sector = s)).map (fun h => (f h).weight)).sum := by
  unfold sectorExposureOf
  rw [List.map_filter]
  have hco : ∀ x ∈ hs, ((fun h : Holding => decide (h.sector = s)) ∘ f) x =
      (fun h : Holding => decide (h.sector = s)) x := by
    intro x _
    simp only [Function.comp]
    rw [hf x]
  rw [List.filter_congr' hco, List.map_map]
  rfl

theorem sectorCapPass_exposure_le (regime : String) (hs : List Holding)
    (hnn : ∀ x ∈ hs, 0 ≤ x.weight) (s : String) :
    sectorExposureOf (sectorCapPass regime hs) s ≤ maxSectorExposureByRegime regime := by
  have hsector : ∀ h : Holding,
      ((fun h : Holding =>
        if maxSectorExposureByRegime regime < sectorExposureOf hs h.sector then
          { h with
            weight := h.weight *
              (maxSectorExposureByRegime regime / sectorExposureOf hs h.sector),
            sectorCapped := true }
        else h) h).sector = h.sector := by
    intro h
    dsimp only
    split_ifs <;> rfl
  have h1 := sectorExposureOf_map_sector_eq _ hsector hs s
  rw [show sectorCapPass regime hs = hs.map _ from rfl, h1]
  by_cases hc : maxSectorExposureByRegime regime < sectorExposureOf hs s
  · have heq : ∀ x ∈ hs.filter (fun h : Holding => h.sector = s),
        ((fun h : Holding =>
          if maxSectorExposureByRegime regime < sectorExposureOf hs h.sector then
            { h with
              weight := h.weight *
                (maxSectorExposureByRegime regime / sectorExposureOf hs h.sector),
              sectorCapped := true }
          else h) x).weight =
          x.weight * (maxSectorExposureByRegime regime / sectorExposureOf hs s) := by
      intro x hx
      have hxs : x.sector = s := by
        have h2 := (List.mem_filter.mp hx).2
        exact of_decide_eq_true h2
      simp only
      rw [hxs, if_pos hc]
    rw [List.map_congr_left heq]
    have hE : 0 < sectorExposureOf hs s :=
      lt_of_le_of_lt (maxSectorExposure_nonneg regime) hc
    have hsum : ((hs.filter (fun h : Holding => h.sector = s)).map
        (fun x => x.weight * (maxSectorExposureByRegime regime /
          sectorExposureOf hs s))).sum =
        sectorExposureOf hs s * (maxSectorExposureByRegime regime /
          sectorExposureOf hs s) := by
      rw [List.sum_map_mul_right]
      rfl
    rw [hsum, mul_div_cancel₀ _ (ne_of_gt hE)]
  · have heq : ∀ x ∈ hs.filter (fun h : Holding => h.sector = s),
        ((fun h : Holding =>
          if maxSectorExposureByRegime regime < sectorExposureOf hs h.sector then
            { h with
              weight := h.weight *
                (maxSectorExposureByRegime regime / sectorExposureOf hs h.sector),
              sectorCapped := true }
          else h) x).weight = x.weight := by
      intro x hx
      have hxs : x.sector = s := by
        have h2 := (List.mem_filter.mp hx).2
        exact of_decide_eq_true h2
      simp only
      rw [hxs, if_neg hc]
    rw [List.map_congr_left heq]
    exact le_of_not_lt hc

theorem fallbackPass_id {target : ℚ} {hs : List Holding}
    (h : ¬ (totalWeightOf hs ≤ 0)) : fallbackPass target hs = hs := by
  unfold fallbackPass
  rw [if_neg h]

theorem normalizePass_le {regime : String} {target A : ℚ} {hs : List Holding}
    (hub : ∀ x ∈ hs, x.weight ≤ A) :
    ∀ x ∈ normalizePass regime target hs,
      x.weight ≤ max A (maxPositionSize regime) := by
  intro x hx
  unfold normalizePass at hx
  split_ifs at hx
  · obtain ⟨y, hy, rfl⟩ := List.mem_map.mp hx
    exact le_trans (min_le_right _ _) (le_max_right _ _)
  · exact le_trans (hub x hx) (le_max_left _ _)

theorem redistributeStep_le {regime : String} {target t0 B : ℚ}
    {hs : List Holding} (hB : maxPositionSize regime ≤ B)
    (hub : ∀ x ∈ hs, x.weight ≤ B) :
    ∀ x ∈ redistributeStep regime target t0 hs, x.weight ≤ B := by
  intro x hx
  unfold redistributeStep at hx
  split_ifs at hx
  · obtain ⟨y, hy, rfl⟩ := List.mem_map.mp hx
    split_ifs with hy2
    · exact le_trans (min_le_right _ _) hB
    · exact hub y hy
  · exact hub x hx

theorem redistributeLoopAux_le (regime : String) (target B : ℚ)
    (hB : maxPositionSize regime ≤ B) :
    ∀ (fuel : ℕ) (hs : List Holding) (t0 : ℚ) (iters : ℕ),
      (∀ x ∈ hs, x.weight ≤ B) →
      ∀ x ∈ (redistributeLoopAux regime target fuel hs t0 iters).1,
        x.weight ≤ B := by
  intro fuel
  induction fuel with
  | zero => intro hs t0 iters hub x hx; exact hub x hx
  | succ fuel ih =>
    intro hs t0 iters hub x hx
    rw [redistributeLoopAux] at hx
    split_ifs at hx
    · exact hub x hx
    · exact ih _ _ _ (redistributeStep_le hB hub) x hx
    · exact hub x hx

theorem cleanupPass_le {B : ℚ} {z : ℤ} {hs : List Holding}
    (hgrid : B = (z : ℚ) / 10000) (hB0 : 0 ≤ B)
    (hub : ∀ x ∈ hs, x.weight ≤ B) :
    ∀ x ∈ cleanupPass hs, x.weight ≤ B := by
  intro x hx
  unfold cleanupPass at hx
  obtain ⟨y, hy, rfl⟩ := List.mem_map.mp hx
  refine round4_le_of_le_grid hgrid ?_
  split_ifs with hc
  · exact hB0
  · exact hub y hy

theorem maxPositionSize_grid (regime : String) :
    ∃ z : ℤ, maxPositionSize regime = (z : ℚ) / 10000 := by
  unfold maxPositionSize
  split_ifs
  · exact ⟨1500, by norm_num⟩
  · exact ⟨1200, by norm_num⟩
  · exact ⟨800, by norm_num⟩
  · exact ⟨500, by norm_num⟩
  · exact ⟨0, by norm_num⟩
  · exact ⟨1200, by norm_num⟩

theorem maxAssetExposure_grid (regime : String) :
    ∃ z : ℤ, maxAssetExposureByRegime regime = (z : ℚ) / 10000 := by
  unfold maxAssetExposureByRegime
  split_ifs
  · exact ⟨1500, by norm_num⟩
  · exact ⟨1200, by norm_num⟩
  · exact ⟨600, by norm_num⟩
  · exact ⟨400, by norm_num⟩
  · exact ⟨200, by norm_num⟩
  · exact ⟨600, by norm_num⟩

theorem maxCapBound_grid (regime : String) :
    ∃ z : ℤ, max (maxAssetExposureByRegime regime) (maxPositionSize regime) =
      (z : ℚ) / 10000 := by
  obtain ⟨za, hza⟩ := maxAssetExposure_grid regime
  obtain ⟨zp, hzp⟩ := maxPositionSize_grid regime
  rcases max_choice (maxAssetExposureByRegime regime) (maxPositionSize regime)
    with hm | hm
  · exact ⟨za, by rw [hm, hza]⟩
  · exact ⟨zp, by rw [hm, hzp]⟩

/-- **C1 (amended).** The per-asset cap `MAX_ASSET_EXPOSURE_BY_REGIME`
and the sector cap `MAX_SECTOR_EXPOSURE_BY_REGIME` are guaranteed only
immediately after the respective cap passes.  The subsequent target
renormalization and the redistribution loop re-clamp only at
`MAX_POSITION_SIZE`, so (provided the invalid-total equal-split fallback
does not fire) every returned weight is bounded by
`max(MAX_ASSET_EXPOSURE_BY_REGIME, MAX_POSITION_SIZE)` — but individual
weights and sector sums may exceed the claim's caps even with an empty
diagnostics note. -/
theorem claim_C1_amended_caps (cands : List CandidateRow) (n : ℤ)
    (strategy regime : String) (pf : Option (List String)) (sqrt10 : ℚ)
    (htot : 0 < totalWeightOf (cappedHoldings cands n strategy regime pf sqrt10)) :
    (∀ h ∈ assetCappedHoldings cands n strategy regime pf sqrt10,
        h.weight ≤ maxAssetExposureByRegime regime) ∧
    (∀ s, sectorExposureOf (cappedHoldings cands n strategy regime pf sqrt10) s
        ≤ maxSectorExposureByRegime regime) ∧
    (∀ h ∈ finalHoldings cands n strategy regime pf sqrt10,
        h.weight ≤ max (maxAssetExposureByRegime regime) (maxPositionSize regime)) := by
  have hnn0 := preCap_weights_nonneg cands n strategy regime pf sqrt10
  have hnn1 : ∀ x ∈ assetCappedHoldings cands n strategy regime pf sqrt10,
      0 ≤ x.weight := by
    rw [assetCappedHoldings]
    exact assetCapPass_nonneg hnn0
  have hub1 : ∀ x ∈ assetCappedHoldings cands n strategy regime pf sqrt10,
      x.weight ≤ maxAssetExposureByRegime regime := by
    rw [assetCappedHoldings]
    exact assetCapPass_le regime _
  refine ⟨hub1, ?_, ?_⟩
  · intro s
    rw [cappedHoldings]
    exact sectorCapPass_exposure_le regime _ hnn1 s
  · intro h hh
    have hcap2 := @sectorCapPass_le regime _ _ hnn1 hub1
    have hub2 : ∀ x ∈ cappedHoldings cands n strategy regime pf sqrt10,
        x.weight ≤ maxAssetExposureByRegime regime := by
      rw [cappedHoldings]
      intro x hx
      exact (hcap2 x hx).2
    have hfb : fallbackPass (targetRVAllocation regime)
        (cappedHoldings cands n strategy regime pf sqrt10) =
        cappedHoldings cands n strategy regime pf sqrt10 :=
      fallbackPass_id (not_le.mpr htot)
    have hub5 : ∀ x ∈ normalizedHoldings cands n strategy regime pf sqrt10,
        x.weight ≤ max (maxAssetExposureByRegime regime) (maxPositionSize regime) := by
      rw [normalizedHoldings, hfb]
      exact normalizePass_le hub2
    have hub6 : ∀ x ∈ (redistributeLoop regime (targetRVAllocation regime)
        (normalizedHoldings cands n strategy regime pf sqrt10)
        (totalWeightOf (normalizedHoldings cands n strategy regime pf sqrt10))).1,
        x.weight ≤ max (maxAssetExposureByRegime regime) (maxPositionSize regime) :=
      redistributeLoopAux_le regime (targetRVAllocation regime) _
        (le_max_right _ _) 20 _ _ 0 hub5
    obtain ⟨zz, hzz⟩ := maxCapBound_grid regime
    have hB0 : 0 ≤ max (maxAssetExposureByRegime regime) (maxPositionSize regime) :=
      le_trans (maxAssetExposure_nonneg regime) (le_max_left _ _)
    have hub7 := cleanupPass_le hzz hB0 hub6
    simp only [finalHoldings] at hh
    obtain ⟨g, hg, rfl⟩ := List.mem_map.mp hh
    exact hub7 g hg

/-- Seven candidates: five in one sector, two spread out. -/
def capsCex : List CandidateRow :=
  [sampleRow "X1" "SA" 7, sampleRow "X2" "SA" 6, sampleRow "X3" "SA" 5,
   sampleRow "X4" "SA" 4, sampleRow "X5" "SA" 3, sampleRow "X6" "SB" 2,
   sampleRow "X7" "SC" 1]

theorem capsCex_selected :
    selectedCandidates capsCex 7 none = capsCex := by
  norm_num [selectedCandidates, topAssets, capsCex, sampleRow]

theorem capsCex_preCap :
    preCapHoldings capsCex 7 "equal_weight" "TRANSITION" none 4 =
      ([⟨"X1", 2/25, some 7, "SA", false, false, 0⟩,
        ⟨"X2", 2/25, some 6, "SA", false, false, 0⟩,
        ⟨"X3", 2/25, some 5, "SA", false, false, 0⟩,
        ⟨"X4", 2/25, some 4, "SA", false, false, 0⟩,
        ⟨"X5", 2/25, some 3, "SA", false, false, 0⟩,
        ⟨"X6", 2/25, some 2, "SB", false, false, 0⟩,
        ⟨"X7", 2/25, some 1, "SC", false, false, 0⟩], "", 0) := by
  rw [preCapHoldings, capsCex_selected]
  norm_num [initialHoldings, capsCex, sampleRow,
    calculatePositionSizeEqualWeight, maxPositionSize_transition, min_def,
    riskOffAdjust, containsRiskOff_transition]

theorem capsCex_capped :
    cappedHoldings capsCex 7 "equal_weight" "TRANSITION" none 4 =
      [⟨"X1", 1/25, some 7, "SA", true, true, 0⟩,
       ⟨"X2", 1/25, some 6, "SA", true, true, 0⟩,
       ⟨"X3", 1/25, some 5, "SA", true, true, 0⟩,
       ⟨"X4", 1/25, some 4, "SA", true, true, 0⟩,
       ⟨"X5", 1/25, some 3, "SA", true, true, 0⟩,
       ⟨"X6", 3/50, some 2, "SB", true, false, 0⟩,
       ⟨"X7", 3/50, some 1, "SC", true, false, 0⟩] := by
  rw [cappedHoldings, assetCappedHoldings, capsCex_preCap]
  norm_num [assetCapPass, sectorCapPass, sectorExposureOf, totalWeightOf,
    maxAssetExposure_transition, maxSectorExposure_transition]
  try simp
  try norm_num

theorem capsCex_normalized :
    normalizedHoldings capsCex 7 "equal_weight" "TRANSITION" none 4 =
      [⟨"X1", 1/16, some 7, "SA", true, true, 0⟩,
       ⟨"X2", 1/16, some 6, "SA", true, true, 0⟩,
       ⟨"X3", 1/16, some 5, "SA", true, true, 0⟩,
       ⟨"X4", 1/16, some 4, "SA", true, true, 0⟩,
       ⟨"X5", 1/16, some 3, "SA", true, true, 0⟩,
       ⟨"X6", 2/25, some 2, "SB", true, false, 0⟩,
       ⟨"X7", 2/25, some 1, "SC", true, false, 0⟩] := by
  rw [normalizedHoldings, capsCex_capped]
  norm_num [fallbackPass, normalizePass, totalWeightOf,
    targetRVAllocation_transition, maxPositionSize_transition, min_def, abs_of_nonneg]
  try simp
  try norm_num

theorem capsCex_final :
    finalHoldings capsCex 7 "equal_weight" "TRANSITION" none 4 =
      [⟨"X1", 17/250, some 7, "SA", true, true, 17/50⟩,
       ⟨"X2", 17/250, some 6, "SA", true, true, 17/50⟩,
       ⟨"X3", 17/250, some 5, "SA", true, true, 17/50⟩,
       ⟨"X4", 17/250, some 4, "SA", true, true, 17/50⟩,
       ⟨"X5", 17/250, some 3, "SA", true, true, 17/50⟩,
       ⟨"X6", 2/25, some 2, "SB", true, false, 2/25⟩,
       ⟨"X7", 2/25, some 1, "SC", true, false, 2/25⟩] := by
  rw [finalHoldings, capsCex_normalized]
  norm_num [redistributeLoop, redistributeLoopAux, redistributeStep, uncappedOf,
    totalWeightOf, targetRVAllocation_transition, maxPositionSize_transition,
    cleanupPass, round4, roundHalfEven, sectorExposureOf, min_def, abs_of_nonneg]
  try simp
  try norm_num

/-- **C1 (counterexample).** Seven TRANSITION equal-weight candidates,
five of them in sector "SA": the redistribution loop pushes the "SA"
weights back up to 0.068 > max_asset_exposure 0.06 + 1e-6 and the "SA"
sector to 0.34 > max_sector_exposure 0.20 + 1e-6, yet the target is hit
exactly and the diagnostics note stays empty. -/
theorem claim_C1_counterexample :
    (buildDiagnostics capsCex 7 "equal_weight" "TRANSITION" none 4).allocationNote
        = "" ∧
    (∃ h ∈ finalHoldings capsCex 7 "equal_weight" "TRANSITION" none 4,
      maxAssetExposureByRegime "TRANSITION" + 1/1000000 < h.weight) ∧
    maxSectorExposureByRegime "TRANSITION" + 1/1000000 <
      sectorExposureOf (finalHoldings capsCex 7 "equal_weight" "TRANSITION" none 4)
        "SA" := by
  refine ⟨?_, ?_, ?_⟩
  · rw [buildDiagnostics]
    norm_num [capsCex_final, capsCex_preCap, totalWeightOf,
      targetRVAllocation_transition]
  · rw [capsCex_final]
    refine ⟨⟨"X1", 17/250, some 7, "SA", true, true, 17/50⟩, ?_, ?_⟩
    · simp
    · norm_num [maxAssetExposure_transition]
  · rw [capsCex_final]
    norm_num [sectorExposureOf, maxSectorExposure_transition]
    try simp
    try norm_num

/-- Witness for the amended C1 at a concrete input. -/
theorem claim_C1_witness :
    (∀ h ∈ assetCappedHoldings capsCex 7 "equal_weight" "TRANSITION" none 4,
        h.weight ≤ maxAssetExposureByRegime "TRANSITION") ∧
    (∀ s, sectorExposureOf (cappedHoldings capsCex 7 "equal_weight" "TRANSITION" none 4) s
        ≤ maxSectorExposureByRegime "TRANSITION") ∧
    (∀ h ∈ finalHoldings capsCex 7 "equal_weight" "TRANSITION" none 4,
        h.weight ≤ max (maxAssetExposureByRegime "TRANSITION")
          (maxPositionSize "TRANSITION")) :=
  claim_C1_amended_caps capsCex 7 "equal_weight" "TRANSITION" none 4
    (by rw [capsCex_capped]; norm_num [totalWeightOf])

/-! ### Risk limit checking (C6) and missing-data defaults (C10) -/

/-- The volatility warning of `_check_risk_limits` (first.py lines
334-338); the interpolated figures are elided. -/
def warningVol : String := "Volatilidade excede limite"

/-- The drawdown warning of `_check_risk_limits` (first.py lines
340-344). -/
def warningDD : String := "Drawdown esperado excede limite"

/-- The concentration warning of `_check_risk_limits` (first.py lines
346-350). -/
def warningConc : String := "Concentracao excede limite"

/-- The warning list accumulated by `RiskFirstEngine._check_risk_limits`
(first.py lines 323-351): one append per violated limit, in source
order. -/
def riskWarnings (portfolioVol expectedDd concentration
    maxVolatility maxDrawdown maxConcentration : ℚ) : List String :=
  (if maxVolatility * (12/10) < portfolioVol then [warningVol] else []) ++
  (if maxDrawdown * (12/10) < expectedDd then [warningDD] else []) ++
  (if maxConcentration < concentration then [warningConc] else [])

/-- `RiskFirstEngine._check_risk_limits`: returns
`(len(warnings) == 0, warnings)`. -/
def checkRiskLimits (portfolioVol expectedDd concentration
    maxVolatility maxDrawdown maxConcentration : ℚ) : Bool × List String :=
  (decide ((riskWarnings portfolioVol expectedDd concentration
      maxVolatility maxDrawdown maxConcentration).length = 0),
   riskWarnings portfolioVol expectedDd concentration
      maxVolatility maxDrawdown maxConcentration)

/-- `RiskFirstEngine._calculate_portfolio_volatility` (first.py lines
198-223): empty price data, or empty returns after `pct_change`,
default to 0.5; otherwise the numeric covariance estimate (abstracted
as `computedVol`) is returned. -/
def calculatePortfolioVolatility (priceDataEmpty returnsEmpty : Bool)
    (computedVol : ℚ) : ℚ :=
  if priceDataEmpty then 1/2 else if returnsEmpty then 1/2 else computedVol

/-- `RiskFirstEngine.DD_MULTIPLIERS.get(risk_tolerance, 2.0)` (first.py
lines 53-58). -/
def ddMultipliers (riskTolerance : String) : ℚ :=
  if riskTolerance = "conservative" then 3/2
  else if riskTolerance = "moderate" then 2
  else if riskTolerance = "aggressive" then 5/2
  else if riskTolerance = "speculative" then 3
  else 2

/-- `RiskFirstEngine._estimate_max_drawdown` (first.py lines 225-232). -/
def estimateMaxDrawdown (volatility : ℚ) (riskTolerance : String) : ℚ :=
  volatility * ddMultipliers riskTolerance

/-- `ObjectiveType` (parser.py). -/
inductive ObjectiveType
  | returnObj | protection | income | speculation | balanced
deriving DecidableEq

/-- `InvestmentHorizon` (parser.py). -/
inductive InvestmentHorizon
  | shortTerm | mediumTerm | longTerm
deriving DecidableEq

/-- `RiskTolerance` (parser.py). -/
inductive RiskTolerance
  | conservative | moderate | aggressive | speculative
deriving DecidableEq

/-- `RiskTolerance.value`, the enum's string payload. -/
def riskToleranceValue : RiskTolerance → String
  | .conservative => "conservative"
  | .moderate => "moderate"
  | .aggressive => "aggressive"
  | .speculative => "speculative"

/-- `IntentParser.PARAMETER_MAP` (parser.py lines 133-226), restricted
to the `(max_volatility, max_drawdown, max_concentration)` fields. -/
def parameterMap : ObjectiveType → InvestmentHorizon → Option (ℚ × ℚ × ℚ)
  | .returnObj, .shortTerm => some (40/100, 25/100, 25/100)
  | .returnObj, .mediumTerm => some (30/100, 20/100, 20/100)
  | .returnObj, .longTerm => some (25/100, 15/100, 15/100)
  | .protection, .shortTerm => some (10/100, 5/100, 10/100)
  | .protection, .mediumTerm => some (12/100, 8/100, 12/100)
  | .protection, .longTerm => some (15/100, 10/100, 10/100)
  | .income, .mediumTerm => some (15/100, 10/100, 15/100)
  | .income, .longTerm => some (18/100, 12/100, 12/100)
  | .speculation, .shortTerm => some (50/100, 35/100, 30/100)
  | .balanced, .mediumTerm => some (20/100, 12/100, 15/100)
  | _, _ => none

/-- `volatility_adjustments.get(risk_tolerance, 1.0)` (parser.py lines
395-403); the enum is total so the default is unreachable. -/
def volatilityAdjustment : RiskTolerance → ℚ
  | .conservative => 7/10
  | .moderate => 1
  | .aggressive => 13/10
  | .speculative => 16/10

/-- `IntentParser._get_parameters` (parser.py lines 379-407): missing
`(objective, horizon)` keys fall back to the BALANCED/MEDIUM_TERM entry,
then `max_volatility` and `max_drawdown` are scaled by the tolerance
adjustment and capped at 0.50 and 0.40 respectively. -/
def getParameters (objective : ObjectiveType) (horizon : InvestmentHorizon)
    (rt : RiskTolerance) : ℚ × ℚ × ℚ :=
  (min (50/100) (((parameterMap objective horizon).getD
      ((parameterMap .balanced .mediumTerm).getD (0, 0, 0))).1
    * volatilityAdjustment rt),
   min (40/100) (((parameterMap objective horizon).getD
      ((parameterMap .balanced .mediumTerm).getD (0, 0, 0))).2.1
    * volatilityAdjustment rt),
   ((parameterMap objective horizon).getD
      ((parameterMap .balanced .mediumTerm).getD (0, 0, 0))).2.2)

theorem checkRiskLimits_dd_violated {pv dd conc mv md mc : ℚ}
    (h : md * (12/10) < dd) :
    (checkRiskLimits pv dd conc mv md mc).1 = false := by
  simp only [checkRiskLimits, riskWarnings, if_pos h]
  split_ifs <;> simp

/-- **C6.** `_check_risk_limits` approves exactly when volatility is at
most 1.2x the budget's max volatility, drawdown at most 1.2x the max
drawdown and concentration at most the max concentration; the warning
list carries exactly one entry per violated limit; in particular
volatility above 1.2x the budget forces rejection with at least one
warning. -/
theorem claim_C6_risk_limits_iff (pv dd conc mv md mc : ℚ) :
    ((checkRiskLimits pv dd conc mv md mc).1 = true ↔
      (pv ≤ mv * (12/10) ∧ dd ≤ md * (12/10) ∧ conc ≤ mc)) ∧
    (checkRiskLimits pv dd conc mv md mc).2.length =
      ((if mv * (12/10) < pv then 1 else 0) +
       (if md * (12/10) < dd then 1 else 0) +
       (if mc < conc then 1 else 0)) ∧
    (mv * (12/10) < pv →
      (checkRiskLimits pv dd conc mv md mc).1 = false ∧
      1 ≤ (checkRiskLimits pv dd conc mv md mc).2.length) := by
  refine ⟨?_, ?_, ?_⟩
  · simp only [checkRiskLimits, riskWarnings]
    split_ifs <;> simp_all [not_lt, le_of_lt]
  · simp only [checkRiskLimits, riskWarnings]
    split_ifs <;> simp
  · intro h
    simp only [checkRiskLimits, riskWarnings, if_pos h]
    split_ifs <;> simp

/-- Witness for C6 at a concrete input: an over-volatile portfolio is
rejected with a warning. -/
theorem claim_C6_witness :
    (checkRiskLimits 1 0 0 (1/2) (1/2) (1/2)).1 = false ∧
    1 ≤ (checkRiskLimits 1 0 0 (1/2) (1/2) (1/2)).2.length :=
  (claim_C6_risk_limits_iff 1 0 0 (1/2) (1/2) (1/2)).2.2 (by norm_num)

theorem ddMult_value_conservative :
    ddMultipliers (riskToleranceValue .conservative) = 3/2 := rfl

theorem ddMult_value_moderate :
    ddMultipliers (riskToleranceValue .moderate) = 2 := rfl

theorem ddMult_value_aggressive :
    ddMultipliers (riskToleranceValue .aggressive) = 5/2 := rfl

theorem ddMult_value_speculative :
    ddMultipliers (riskToleranceValue .speculative) = 3 := rfl

theorem ddMultipliers_ge (rt : RiskTolerance) :
    3/2 ≤ ddMultipliers (riskToleranceValue rt) := by
  cases rt <;>
    norm_num [ddMult_value_conservative, ddMult_value_moderate,
      ddMult_value_aggressive, ddMult_value_speculative]

theorem getParameters_md_le (objective : ObjectiveType)
    (horizon : InvestmentHorizon) (rt : RiskTolerance) :
    (getParameters objective horizon rt).2.1 ≤ 2/5 := by
  have h : (getParameters objective horizon rt).2.1 =
      min (40/100) (((parameterMap objective horizon).getD
        ((parameterMap .balanced .mediumTerm).getD (0, 0, 0))).2.1
      * volatilityAdjustment rt) := rfl
  rw [h]
  exact le_trans (min_le_left _ _) (by norm_num)

/-- **C10.** With empty price history the portfolio volatility defaults
to the conservative 0.5; the estimated drawdown 0.5 x multiplier is
then at least 0.75, above 1.2x any parser-derived max_drawdown (capped
at 0.40), so the assessment is never approved on missing data. -/
theorem claim_C10_missing_data_rejected (objective : ObjectiveType)
    (horizon : InvestmentHorizon) (rt : RiskTolerance)
    (returnsEmpty : Bool) (computedVol concentration : ℚ) :
    calculatePortfolioVolatility true returnsEmpty computedVol = 1/2 ∧
    (checkRiskLimits
      (calculatePortfolioVolatility true returnsEmpty computedVol)
      (estimateMaxDrawdown
        (calculatePortfolioVolatility true returnsEmpty computedVol)
        (riskToleranceValue rt))
      concentration
      (getParameters objective horizon rt).1
      (getParameters objective horizon rt).2.1
      (getParameters objective horizon rt).2.2).1 = false := by
  have hvol : calculatePortfolioVolatility true returnsEmpty computedVol = 1/2 := rfl
  refine ⟨hvol, ?_⟩
  apply checkRiskLimits_dd_violated
  rw [hvol, estimateMaxDrawdown]
  have h1 := getParameters_md_le objective horizon rt
  have h2 := ddMultipliers_ge rt
  nlinarith [h1, h2]

/-! ### Missing-proxy handling of the regime engine (C8) -/

/-- The macro snapshot seen by `calculate_regime_for_date` (engine.py
lines 105-165): per-series emptiness, the Ibovespa series length, and
the score each proxy calculator would return on its non-empty series
(`none` models the calculators' Python `None` for short series). -/
structure MacroSnapshot where
  selicEmpty : Bool
  usdEmpty : Bool
  ibovEmpty : Bool
  ibovLen : ℕ
  yieldCurveScore : Option ℚ
  riskSpreadScore : Option ℚ
  ibovTrendScore : Option ℚ
  capitalFlowScore : Option ℚ
  liquiditySentimentScore : Option ℚ
deriving DecidableEq, Repr

/-- One proxy branch of `calculate_regime_for_date`: when the gate (the
series-availability test) fails, `scores[key] = 0.0`; when it holds, the
calculator runs and its score is immediately interpolated into an
f-string `{score:.2f}`, which raises `TypeError` when the calculator
returned `None` (short series). -/
def engineStep (gate : Bool) (c : Option ℚ) : Except String ℚ :=
  if gate then
    match c with
    | some s => .ok s
    | none => .error "unsupported format string passed to NoneType"
  else .ok 0

/-- The `scores` dict assembled by `calculate_regime_for_date` (engine.py
lines 105-160), in source order; a raised `TypeError` aborts the run. -/
def engineScores (m : MacroSnapshot) : Except String ProxyScores :=
  (engineStep (!m.selicEmpty) m.yieldCurveScore).bind fun yc =>
  (engineStep (!m.usdEmpty) m.riskSpreadScore).bind fun rs =>
  (engineStep (!m.ibovEmpty) m.ibovTrendScore).bind fun it =>
  (engineStep (!m.usdEmpty && !m.ibovEmpty) m.capitalFlowScore).bind fun cf =>
  (engineStep (!m.ibovEmpty && decide (21 < m.ibovLen))
      m.liquiditySentimentScore).map fun ls =>
  ⟨some yc, some rs, some it, some cf, some ls⟩

/-- `calculate_regime_for_date` restricted to its regime/score output
(engine.py lines 162-173). -/
def calculateRegimeForDate (m : MacroSnapshot) : Except String (String × ℚ) :=
  (engineScores m).map classifyRegimeFromScores

/-- The proxy scores as the SPEC describes the engine: a missing macro
series is excluded outright, contributing nothing and removing its
weight from the denominator.  This definition follows the spec's words,
for comparison with `engineScores`. -/
def specAvailableScores (m : MacroSnapshot) : ProxyScores :=
  ⟨if m.selicEmpty then none else m.yieldCurveScore,
   if m.usdEmpty then none else m.riskSpreadScore,
   if m.ibovEmpty then none else m.ibovTrendScore,
   if m.usdEmpty || m.ibovEmpty then none else m.capitalFlowScore,
   if m.ibovEmpty || !(decide (21 < m.ibovLen)) then none
     else m.liquiditySentimentScore⟩

/-- The composite the SPEC claims: weighted sum of available proxies
over half the sum of the available proxies' weights only. -/
def specCompositeScore (m : MacroSnapshot) : ℚ :=
  finalScore (specAvailableScores m)

/-- A snapshot whose SELIC series is empty while every other proxy
scores 2. -/
def missingSelicSnapshot : MacroSnapshot :=
  ⟨true, false, false, 300, none, some 2, some 2, some 2, some 2⟩

theorem missingSelic_engineScores :
    engineScores missingSelicSnapshot =
      .ok ⟨some 0, some 2, some 2, some 2, some 2⟩ := rfl

/-- **C8 (counterexample).** With the SELIC series empty and the other
four proxies at score 2, the engine keeps the missing proxy's weight in
the denominator and classifies TRANSITION with composite 3, while the
spec's available-weights-only formula yields composite 4 and RISK_ON. -/
theorem claim_C8_counterexample :
    calculateRegimeForDate missingSelicSnapshot = .ok ("TRANSITION", 3) ∧
    specCompositeScore missingSelicSnapshot = 4 ∧
    classifyScore (specCompositeScore missingSelicSnapshot) = "RISK_ON" := by
  have h4 : specCompositeScore missingSelicSnapshot = 4 := by
    rw [specCompositeScore]
    norm_num [specAvailableScores, missingSelicSnapshot, finalScore, totalWeight,
      weightedSum, proxyPairs, optWSum_cons_some, optWSum_cons_none,
      optWTot_cons_some, optWTot_cons_none, optWSum, optWTot]
  refine ⟨?_, h4, ?_⟩
  · rw [calculateRegimeForDate, missingSelic_engineScores, Except.map]
    have h3 : finalScore ⟨some 0, some 2, some 2, some 2, some 2⟩ = 3 := by
      norm_num [finalScore, totalWeight, weightedSum, proxyPairs,
        optWSum_cons_some, optWSum_cons_none, optWTot_cons_some,
        optWTot_cons_none, optWSum, optWTot]
    rw [classifyRegimeFromScores, h3]
    norm_num [classifyScore]
  · rw [h4]
    norm_num [classifyScore]

theorem engineStep_false (c : Option ℚ) :
    engineStep false c = .ok 0 := rfl

/-- **C8 (amended).** On every run of `calculate_regime_for_date` that
returns (rather than raising `TypeError` on a short series), each proxy
has a present score — a missing macro series is scored `0.0`, not
excluded — so the normalization denominator is always half of the FULL
weight sum 10: the composite is `weighted_sum / 5`, and each missing
series contributes a zero score whose weight stays in the denominator. -/
theorem claim_C8_amended_full_denominator (m : MacroSnapshot)
    (ps : ProxyScores) (h : engineScores m = .ok ps) :
    totalWeight ps = 10 ∧
    finalScore ps = weightedSum ps / 5 ∧
    (m.selicEmpty = true → ps.yieldCurve = some 0) ∧
    (m.usdEmpty = true → ps.riskSpread = some 0) ∧
    (m.ibovEmpty = true → ps.ibovTrend = some 0) := by
  rw [engineScores] at h
  cases hyc : engineStep (!m.selicEmpty) m.yieldCurveScore with
  | error e => rw [hyc] at h; simp [Except.bind] at h
  | ok yc =>
  rw [hyc] at h
  simp only [Except.bind] at h
  cases hrs : engineStep (!m.usdEmpty) m.riskSpreadScore with
  | error e => rw [hrs] at h; simp [Except.bind] at h
  | ok rs =>
  rw [hrs] at h
  simp only [Except.bind] at h
  cases hit : engineStep (!m.ibovEmpty) m.ibovTrendScore with
  | error e => rw [hit] at h; simp [Except.bind] at h
  | ok it =>
  rw [hit] at h
  simp only [Except.bind] at h
  cases hcf : engineStep (!m.usdEmpty && !m.ibovEmpty) m.capitalFlowScore with
  | error e => rw [hcf] at h; simp [Except.bind] at h
  | ok cf =>
  rw [hcf] at h
  simp only [Except.bind] at h
  cases hls : engineStep (!m.ibovEmpty && decide (21 < m.ibovLen))
      m.liquiditySentimentScore with
  | error e => rw [hls] at h; simp [Except.map] at h
  | ok ls =>
  rw [hls] at h
  simp only [Except.map] at h
  injection h with h
  subst h
  have htot : totalWeight (⟨some yc, some rs, some it, some cf, some ls⟩ : ProxyScores)
      = 10 := by
    norm_num [totalWeight, proxyPairs, optWTot_cons_some, optWTot]
  refine ⟨htot, ?_, ?_, ?_, ?_⟩
  · rw [finalScore, htot, if_pos (by norm_num)]
    norm_num
  · intro hse
    rw [hse] at hyc
    rw [Bool.not_true, engineStep_false] at hyc
    have := Except.ok.inj hyc
    simp [this]
  · intro hue
    rw [hue] at hrs
    rw [Bool.not_true, engineStep_false] at hrs
    have := Except.ok.inj hrs
    simp [this]
  · intro hie
    rw [hie] at hit
    rw [Bool.not_true, engineStep_false] at hit
    have := Except.ok.inj hit
    simp [this]

/-- Witness for the amended C8 at a concrete snapshot. -/
theorem claim_C8_witness :
    totalWeight (⟨some 0, some 2, some 2, some 2, some 2⟩ : ProxyScores) = 10 ∧
    finalScore (⟨some 0, some 2, some 2, some 2, some 2⟩ : ProxyScores) =
      weightedSum (⟨some 0, some 2, some 2, some 2, some 2⟩ : ProxyScores) / 5 ∧
    (missingSelicSnapshot.selicEmpty = true →
      (⟨some 0, some 2, some 2, some 2, some 2⟩ : ProxyScores).yieldCurve = some 0) ∧
    (missingSelicSnapshot.usdEmpty = true →
      (⟨some 0, some 2, some 2, some 2, some 2⟩ : ProxyScores).riskSpread = some 0) ∧
    (missingSelicSnapshot.ibovEmpty = true →
      (⟨some 0, some 2, some 2, some 2, some 2⟩ : ProxyScores).ibovTrend = some 0) :=
  claim_C8_amended_full_denominator missingSelicSnapshot
    ⟨some 0, some 2, some 2, some 2, some 2⟩ missingSelic_engineScores

/-! ### Rank integrity of the scoring engine (C9) -/

/-- One row of `FACTOR_WEIGHTS` (parameters.py lines 35-71). -/
structure FactorWeights where
  momentum : ℚ
  quality : ℚ
  value : ℚ
  volatility : ℚ
  liquidity : ℚ
deriving DecidableEq, Repr

/-- `FACTOR_WEIGHTS.get(regime, FACTOR_WEIGHTS["TRANSITION"])`
(calculator.py line 223). -/
def factorWeights (regime : String) : FactorWeights :=
  if regime = "RISK_ON_STRONG" then ⟨40/100, 20/100, 15/100, 15/100, 10/100⟩
  else if regime = "RISK_ON" then ⟨35/100, 25/100, 20/100, 10/100, 10/100⟩
  else if regime = "TRANSITION" then ⟨25/100, 30/100, 25/100, 10/100, 10/100⟩
  else if regime = "RISK_OFF" then ⟨15/100, 35/100, 30/100, 15/100, 5/100⟩
  else if regime = "RISK_OFF_STRONG" then ⟨0, 0, 0, 0, 0⟩
  else ⟨25/100, 30/100, 25/100, 10/100, 10/100⟩

theorem factorWeights_transition :
    factorWeights "TRANSITION" = ⟨25/100, 30/100, 25/100, 10/100, 10/100⟩ := rfl

/-- The `effective_weights` state machine of `calculate_composite_score`
(calculator.py lines 269-291), read back through
`effective_weights.get(key, 0)` (lines 294-299): a key absent from the
dict contributes weight 0. -/
def effectiveWeights (regime : String) (hasQuality hasValue : Bool) :
    FactorWeights :=
  if !hasQuality && !hasValue then ⟨5/10, 0, 0, 3/10, 2/10⟩
  else if !hasQuality then
    ⟨(factorWeights regime).momentum + (factorWeights regime).quality * (5/10), 0,
     (factorWeights regime).value + (factorWeights regime).quality * (5/10),
     (factorWeights regime).volatility, (factorWeights regime).liquidity⟩
  else if !hasValue then
    ⟨(factorWeights regime).momentum + (factorWeights regime).value * (5/10),
     (factorWeights regime).quality + (factorWeights regime).value * (5/10), 0,
     (factorWeights regime).volatility, (factorWeights regime).liquidity⟩
  else factorWeights regime

/-- One asset's component scores entering the `score_final` line
(calculator.py lines 294-300); when fundamentals are missing the engine
has already set the quality/value columns to 0.0. -/
structure ScoredAsset where
  ticker : String
  scoreMomentum : ℚ
  scoreQuality : ℚ
  scoreValue : ℚ
  scoreVolatility : ℚ
  scoreLiquidity : ℚ
deriving DecidableEq, Repr

/-- `results["score_final"]` for one asset (calculator.py lines
294-300). -/
def scoreFinal (w : FactorWeights) (a : ScoredAsset) : ℚ :=
  w.momentum * a.scoreMomentum + w.quality * a.scoreQuality +
  w.value * a.scoreValue + w.volatility * a.scoreVolatility +
  w.liquidity * a.scoreLiquidity

/-- pandas `Series.rank(ascending=False)` (default `method='average'`)
of the value `s` in the series `xs`: descending rank 1 is the largest;
a tied group gets the average of its positions, which is the count of
strictly greater entries plus `(ties + 1)/2`. -/
def avgRank (xs : List ℚ) (s : ℚ) : ℚ :=
  ((xs.filter (fun x => s < x)).length : ℚ) +
  (((xs.filter (fun x => x = s)).length : ℚ) + 1) / 2

/-- `.astype(int)`: numpy float-to-int conversion truncates toward
zero. -/
def truncToInt (q : ℚ) : ℤ := if 0 ≤ q then ⌊q⌋ else ⌈q⌉

/-- `calculate_composite_score` from the component scores onward
(calculator.py lines 269-303): the weighted final score and
`rank_universe = score_final.rank(ascending=False).astype(int)` per
asset. -/
def calculateCompositeScore (regime : String) (hasQuality hasValue : Bool)
    (assets : List ScoredAsset) : List (String × ℚ × ℤ) :=
  assets.map (fun a => (a.ticker,
    scoreFinal (effectiveWeights regime hasQuality hasValue) a,
    truncToInt (avgRank
      (assets.map (scoreFinal (effectiveWeights regime hasQuality hasValue)))
      (scoreFinal (effectiveWeights regime hasQuality hasValue) a))))

theorem filter_eq_length_one {s : ℚ} :
    ∀ {xs : List ℚ}, xs.Nodup → s ∈ xs →
      (xs.filter (fun x => x = s)).length = 1 := by
  intro xs
  induction xs with
  | nil => intro _ h; exact absurd h (List.not_mem_nil s)
  | cons a t ih =>
    intro hnd hmem
    rw [List.filter_cons]
    rcases List.mem_cons.mp hmem with rfl | hmem2
    · rw [if_pos (by simp)]
      have hnil : t.filter (fun x => x = s) = [] := by
        rw [List.filter_eq_nil_iff]
        intro b hb hbs
        exact (List.nodup_cons.mp hnd).1 ((of_decide_eq_true hbs) ▸ hb)
      rw [hnil]
      rfl
    · have has : ¬ (a = s) := by
        rintro rfl
        exact (List.nodup_cons.mp hnd).1 hmem2
      rw [if_neg (by simpa using has)]
      exact ih (List.nodup_cons.mp hnd).2 hmem2

theorem truncToInt_natCast_add_one (g : ℕ) :
    truncToInt ((g : ℚ) + 1) = (g : ℤ) + 1 := by
  rw [truncToInt, if_pos (by positivity)]
  rw [show ((g : ℚ) + 1) = (((g : ℤ) + 1 : ℤ) : ℚ) by push_cast; ring]
  exact Int.floor_intCast _

theorem truncRank_eq {xs : List ℚ} {s : ℚ} (hnd : xs.Nodup) (hs : s ∈ xs) :
    truncToInt (avgRank xs s) =
      ((xs.filter (fun x => s < x)).length : ℤ) + 1 := by
  rw [avgRank, filter_eq_length_one hnd hs]
  have h2 : (((1 : ℕ) : ℚ) + 1) / 2 = 1 := by norm_num
  rw [h2]
  exact truncToInt_natCast_add_one _

theorem gcount_mono {x y : ℚ} (hxy : x < y) :
    ∀ (t : List ℚ),
      (t.filter (fun z => y < z)).length ≤ (t.filter (fun z => x < z)).length := by
  intro t
  induction t with
  | nil => simp
  | cons a t ih =>
    rw [List.filter_cons, List.filter_cons]
    by_cases hya : y < a
    · rw [if_pos (by simpa using hya), if_pos (by simpa using lt_trans hxy hya)]
      simpa using ih
    · rw [if_neg (by simpa using hya)]
      split_ifs
      · exact le_trans ih (by simp)
      · exact ih

theorem gcount_lt_gcount {xs : List ℚ} {x y : ℚ} (hy : y ∈ xs) (hxy : x < y) :
    (xs.filter (fun z => y < z)).length <
      (xs.filter (fun z => x < z)).length := by
  have hperm := List.perm_cons_erase hy
  have h1 : (xs.filter (fun z => y < z)).length =
      ((y :: xs.erase y).filter (fun z => y < z)).length :=
    (hperm.filter _).length_eq
  have h2 : (xs.filter (fun z => x < z)).length =
      ((y :: xs.erase y).filter (fun z => x < z)).length :=
    (hperm.filter _).length_eq
  rw [h1, h2, List.filter_cons, List.filter_cons,
    if_neg (by simp), if_pos (by simpa using hxy)]
  simpa using Nat.lt_succ_of_le (gcount_mono hxy (xs.erase y))

theorem gcount_add_one_le {xs : List ℚ} {v : ℚ} (hv : v ∈ xs) :
    (xs.filter (fun z => v < z)).length + 1 ≤ xs.length := by
  have hperm := List.perm_cons_erase hv
  have h1 : (xs.filter (fun z => v < z)).length =
      ((v :: xs.erase v).filter (fun z => v < z)).length :=
    (hperm.filter _).length_eq
  rw [h1, List.filter_cons, if_neg (by simp)]
  have hle := List.length_filter_le (fun z => decide (v < z)) (xs.erase v)
  have hlen : (xs.erase v).length + 1 = xs.length := by
    have := hperm.length_eq
    simp at this
    omega
  omega

theorem truncRank_injOn {xs : List ℚ} (hnd : xs.Nodup) :
    ∀ x ∈ xs, ∀ y ∈ xs,
      truncToInt (avgRank xs x) = truncToInt (avgRank xs y) → x = y := by
  intro x hx y hy heq
  by_contra hne
  rw [truncRank_eq hnd hx, truncRank_eq hnd hy] at heq
  rcases lt_or_gt_of_ne hne with hlt | hgt
  · have := gcount_lt_gcount hy hlt
    omega
  · have := gcount_lt_gcount hx hgt
    omega

theorem ranksList_perm (xs : List ℚ) (hnd : xs.Nodup) :
    (xs.map (fun s => truncToInt (avgRank xs s))).Perm
      ((List.range xs.length).map (fun i : ℕ => (i : ℤ) + 1)) := by
  have hnl : (xs.map (fun s => truncToInt (avgRank xs s))).Nodup :=
    List.Nodup.map_on (fun x hx y hy h => truncRank_injOn hnd x hx y hy h) hnd
  have hnl2 : ((List.range xs.length).map (fun i : ℕ => (i : ℤ) + 1)).Nodup := by
    refine List.Nodup.map ?_ (List.nodup_range _)
    intro a b hab
    simpa using hab
  apply List.perm_of_nodup_nodup_toFinset_eq hnl hnl2
  apply Finset.eq_of_subset_of_card_le
  · intro a ha
    rw [List.mem_toFinset] at ha ⊢
    obtain ⟨s, hs, rfl⟩ := List.mem_map.mp ha
    rw [List.mem_map]
    refine ⟨(xs.filter (fun x => s < x)).length, ?_, ?_⟩
    · rw [List.mem_range]
      have := gcount_add_one_le hs
      omega
    · exact (truncRank_eq hnd hs).symm
  · rw [List.toFinset_card_of_nodup hnl2, List.toFinset_card_of_nodup hnl]
    simp

/-- **C9 (amended).** Ranks emitted by `calculate_composite_score` come
from pandas average ranking truncated to int, so they form a contiguous
permutation of 1..N only when the final scores are pairwise distinct;
under that hypothesis the ranks are exactly a permutation of 1..N. -/
theorem claim_C9_amended_rank_permutation (regime : String)
    (hasQuality hasValue : Bool) (assets : List ScoredAsset)
    (hnd : (assets.map
      (scoreFinal (effectiveWeights regime hasQuality hasValue))).Nodup) :
    ((calculateCompositeScore regime hasQuality hasValue assets).map
        (fun r => r.2.2)).Perm
      ((List.range assets.length).map (fun i : ℕ => (i : ℤ) + 1)) := by
  have hmap : (calculateCompositeScore regime hasQuality hasValue assets).map
      (fun r => r.2.2) =
      (assets.map (scoreFinal (effectiveWeights regime hasQuality hasValue))).map
        (fun s => truncToInt (avgRank
          (assets.map (scoreFinal (effectiveWeights regime hasQuality hasValue)))
          s)) := by
    rw [calculateCompositeScore, List.map_map, List.map_map]
    rfl
  rw [hmap]
  have h := ranksList_perm _ hnd
  simpa using h

/-- Two assets with identical component scores. -/
def tieAssets : List ScoredAsset :=
  [⟨"T1", 1, 1, 1, 1, 1⟩, ⟨"T2", 1, 1, 1, 1, 1⟩]

theorem tieAssets_ranks :
    (calculateCompositeScore "TRANSITION" true true tieAssets).map
      (fun r => r.2.2) = [1, 1] := by
  rw [calculateCompositeScore]
  norm_num [tieAssets, scoreFinal, effectiveWeights, factorWeights_transition,
    avgRank, truncToInt]
  try simp
  try norm_num

/-- **C9 (counterexample).** Two assets with tied final scores get
average rank 1.5, truncated by `astype(int)` to rank 1 for both: the
emitted ranks `[1, 1]` are not a permutation of 1..2 (duplicate 1, no
2). -/
theorem claim_C9_counterexample :
    (calculateCompositeScore "TRANSITION" true true tieAssets).map
        (fun r => r.2.2) = [1, 1] ∧
    ¬ ((calculateCompositeScore "TRANSITION" true true tieAssets).map
        (fun r => r.2.2)).Perm
      ((List.range tieAssets.length).map (fun i : ℕ => (i : ℤ) + 1)) := by
  refine ⟨tieAssets_ranks, ?_⟩
  rw [tieAssets_ranks]
  decide

/-- Two assets with distinct final scores. -/
def distinctAssets : List ScoredAsset :=
  [⟨"D1", 1, 0, 0, 0, 0⟩, ⟨"D2", 0, 0, 0, 0, 0⟩]

/-- Witness for the amended C9 at a concrete input. -/
theorem claim_C9_witness :
    ((calculateCompositeScore "TRANSITION" true true distinctAssets).map
        (fun r => r.2.2)).Perm
      ((List.range distinctAssets.length).map (fun i : ℕ => (i : ℤ) + 1)) :=
  claim_C9_amended_rank_permutation "TRANSITION" true true distinctAssets (by
    simp [distinctAssets, scoreFinal, effectiveWeights, factorWeights_transition]
    try norm_num)

end SmartInvest
